import Mathlib

/-!
# mcp-schema: verification of the serde serialization contract

A shallow embedding of the `mcp-schema` Rust crate (`src/types.rs` and the
`src/types/` modules): the JSON value model, the serde-derived
deserializers (`parse`) and serializers (`toJson`) of the MCP payload
types, and theorems about the disambiguation, defaulting, renaming and
round-trip behaviour of those codecs.

Modelling conventions, mirroring serde / serde_json semantics:

* JSON objects are finite association lists in input order; inputs are
  assumed duplicate-free (as `serde_json::Value::Object` cannot hold
  duplicate keys).
* A struct deserializes only from an object.  Declared fields are looked
  up by wire name; a missing `Option` field (or an explicit `null`)
  becomes `none`; a missing non-`Option` field without `#[serde(default)]`
  is an error; unknown keys are ignored, except that a
  `#[serde(flatten)] extra: HashMap<String, Value>` field captures every
  key not consumed by a declared field.
* Serialization emits the declared fields in declaration order (an
  `Option` field that is `none` is omitted, per `skip_serializing_if`),
  then the `extra` entries in order.
* `#[serde(untagged)]` enums try each variant's deserializer in
  declaration order and keep the first success.
* `#[serde(tag = "method")]` enums read the tag string and fail on any
  string outside the declared renames.
* `#[serde(rename_all = "camelCase")]` computes a field's wire name from
  its Rust name exactly as `serde_derive`'s `RenameRule::apply_to_field`
  does (split on `_`, capitalize each later word); an explicit
  `#[serde(rename = "...")]` overrides it.  The function
  `renameAllCamelCase` below reproduces that rule.
-/

namespace MCPSchema

/-- A JSON number that is not an integer, kept as its literal text (the
crate never computes with floats; they only occur as opaque values). -/
structure FloatLit where
  lit : String
deriving DecidableEq, Repr

/-- The JSON value model (`serde_json::Value`), with objects as ordered
association lists and integer-valued numbers distinguished from others,
as `serde_json::Number` distinguishes `i64` from `f64`. -/
inductive Json where
  | null
  | bool (b : Bool)
  | int (n : Int)
  | float (x : FloatLit)
  | str (s : String)
  | arr (xs : List Json)
  | obj (kvs : List (String × Json))

namespace Json

/-- First value bound to `k` in an association list (objects are
duplicate-free, so this is the value of key `k`). -/
def lookupKey (kvs : List (String × Json)) (k : String) : Option Json :=
  match kvs with
  | [] => none
  | (k', v) :: rest => if k' = k then some v else lookupKey rest k

/-- Whether an object key list contains key `k`. -/
def hasKey (kvs : List (String × Json)) (k : String) : Bool :=
  match kvs with
  | [] => false
  | (k', _) :: rest => if k' = k then true else hasKey rest k

def getObj? : Json → Option (List (String × Json))
  | .obj kvs => some kvs
  | _ => none

def getStr? : Json → Option String
  | .str s => some s
  | _ => none

def getInt? : Json → Option Int
  | .int n => some n
  | _ => none

def getBool? : Json → Option Bool
  | .bool b => some b
  | _ => none

def getArr? : Json → Option (List Json)
  | .arr xs => some xs
  | _ => none

end Json

/-- serde_derive `RenameRule::PascalCase` applied to a field name's
characters: drop each `_` and capitalize the character that follows a
word boundary. -/
def pascalChars : Bool → List Char → List Char
  | _, [] => []
  | capitalize, c :: cs =>
    if c = '_' then pascalChars true cs
    else (if capitalize then c.toUpper else c) :: pascalChars false cs

/-- serde_derive `RenameRule::CamelCase`, the rule applied by
`#[serde(rename_all = "camelCase")]` to every field without an explicit
`#[serde(rename = "...")]`: PascalCase, then lowercase the first
character. -/
def renameAllCamelCase (s : String) : String :=
  match pascalChars true s.data with
  | [] => ""
  | c :: cs => String.mk (c.toLower :: cs)

/-- A required struct field: the wire key must be present and its value
must parse. -/
def reqField {α : Type} (kvs : List (String × Json)) (k : String)
    (p : Json → Option α) : Option α :=
  (Json.lookupKey kvs k).bind p

/-- An `Option<T>` struct field: a missing key or an explicit `null`
deserializes to `none`; any other present value must parse as `T`. -/
def optField {α : Type} (kvs : List (String × Json)) (k : String)
    (p : Json → Option α) : Option (Option α) :=
  match Json.lookupKey kvs k with
  | none => some none
  | some .null => some none
  | some v => (p v).map some

/-- The entries a `#[serde(flatten)] extra` map captures: every key not
consumed by a declared field. -/
def remainingKeys (kvs : List (String × Json)) (declared : List String) :
    List (String × Json) :=
  kvs.filter (fun kv => !(declared.contains kv.1))

/-- Serialization of an `Option` field under `skip_serializing_if =
"Option::is_none"`: `none` emits nothing, never `null`. -/
def optEntry {α : Type} (k : String) (v : Option α) (s : α → Json) :
    List (String × Json) :=
  match v with
  | none => []
  | some a => [(k, s a)]

/-- An `Option<HashMap<String, Value>>` value must be a JSON object. -/
def parseRawMap (j : Json) : Option (List (String × Json)) := j.getObj?

/-- `RequestId` (src/types.rs): `#[serde(untagged)]` union of `String`
and `i64`. -/
inductive RequestId where
  | string (s : String)
  | number (n : Int)
deriving DecidableEq, Repr

/-- Untagged deserialization of `RequestId`: try `String`, then `i64`,
in declaration order; every other JSON shape fails. -/
def RequestId.parse (j : Json) : Option RequestId :=
  match j.getStr? with
  | some s => some (.string s)
  | none =>
    match j.getInt? with
    | some n => some (.number n)
    | none => none

def RequestId.toJson : RequestId → Json
  | .string s => .str s
  | .number n => .int n

/-- `ProgressToken` (src/types.rs): same untagged `String`/`i64` shape
as `RequestId`. -/
inductive ProgressToken where
  | string (s : String)
  | number (n : Int)
deriving DecidableEq, Repr

def ProgressToken.parse (j : Json) : Option ProgressToken :=
  match j.getStr? with
  | some s => some (.string s)
  | none =>
    match j.getInt? with
    | some n => some (.number n)
    | none => none

def ProgressToken.toJson : ProgressToken → Json
  | .string s => .str s
  | .number n => .int n

/-- `RequestMeta` (src/types.rs): the typed `_meta` payload of request
params; its one field has an explicit `rename = "progressToken"`. -/
structure RequestMeta where
  progress_token : Option ProgressToken
deriving DecidableEq, Repr

def RequestMeta.parseFields (kvs : List (String × Json)) : Option RequestMeta := do
  let pt ← optField kvs "progressToken" ProgressToken.parse
  pure ⟨pt⟩

def RequestMeta.parse (j : Json) : Option RequestMeta :=
  j.getObj? >>= RequestMeta.parseFields

def RequestMeta.fieldsOf (m : RequestMeta) : List (String × Json) :=
  optEntry "progressToken" m.progress_token ProgressToken.toJson

def RequestMeta.toJson (m : RequestMeta) : Json := .obj m.fieldsOf

/-- `MCPNotificationParams` (src/types.rs): `rename = "_meta"` map plus
a flattened `extra` map. -/
structure MCPNotificationParams where
  meta : Option (List (String × Json))
  extra : List (String × Json)

def MCPNotificationParams.parseFields (kvs : List (String × Json)) :
    Option MCPNotificationParams := do
  let m ← optField kvs "_meta" parseRawMap
  pure ⟨m, remainingKeys kvs ["_meta"]⟩

def MCPNotificationParams.parse (j : Json) : Option MCPNotificationParams :=
  j.getObj? >>= MCPNotificationParams.parseFields

/-- `#[derive(Default)]` on `MCPNotificationParams`. -/
def MCPNotificationParams.default : MCPNotificationParams := ⟨none, []⟩

def MCPNotificationParams.fieldsOf (p : MCPNotificationParams) :
    List (String × Json) :=
  optEntry "_meta" p.meta Json.obj ++ p.extra

def MCPNotificationParams.toJson (p : MCPNotificationParams) : Json :=
  .obj p.fieldsOf

/-- `MCPResultBase` (src/types.rs): `rename = "_meta"` map plus a
flattened `extra` map; `EmptyResult` is a type alias for it. -/
structure MCPResultBase where
  meta : Option (List (String × Json))
  extra : List (String × Json)

def MCPResultBase.parseFields (kvs : List (String × Json)) :
    Option MCPResultBase := do
  let m ← optField kvs "_meta" parseRawMap
  pure ⟨m, remainingKeys kvs ["_meta"]⟩

def MCPResultBase.parse (j : Json) : Option MCPResultBase :=
  j.getObj? >>= MCPResultBase.parseFields

def MCPResultBase.fieldsOf (p : MCPResultBase) : List (String × Json) :=
  optEntry "_meta" p.meta Json.obj ++ p.extra

def MCPResultBase.toJson (p : MCPResultBase) : Json := .obj p.fieldsOf

abbrev EmptyResult := MCPResultBase

/-- `PingParams` (src/types.rs): an empty struct; deserializes from any
object, ignoring all keys. -/
structure PingParams where
deriving DecidableEq, Repr

def PingParams.parse (j : Json) : Option PingParams :=
  j.getObj?.map (fun _ => ⟨⟩)

def PingParams.toJson (_ : PingParams) : Json := .obj []

/-- An `f64` field's value: serde accepts any JSON number, so we keep
whichever number shape arrived (integral or not). -/
inductive JsonNum where
  | int (n : Int)
  | float (x : FloatLit)
deriving DecidableEq, Repr

def JsonNum.parse : Json → Option JsonNum
  | .int n => some (.int n)
  | .float x => some (.float x)
  | _ => none

def JsonNum.toJson : JsonNum → Json
  | .int n => .int n
  | .float x => .float x

/-- A `Value` field accepts any JSON value. -/
def parseAnyJson (j : Json) : Option Json := some j

/-- A `HashMap<String, String>` field: an object with string values. -/
def parseStringMap (j : Json) : Option (List (String × String)) := do
  let kvs ← j.getObj?
  kvs.mapM (fun kv => (kv.2.getStr?).map (fun s => (kv.1, s)))

def stringMapToJson (m : List (String × String)) : Json :=
  .obj (m.map (fun kv => (kv.1, .str kv.2)))

/-- A `Vec<String>` field. -/
def parseStringList (j : Json) : Option (List String) := do
  let xs ← j.getArr?
  xs.mapM Json.getStr?

def stringListToJson (xs : List String) : Json := .arr (xs.map .str)

/-- `Role` (src/types.rs): `rename_all = "lowercase"` enum. -/
inductive Role where
  | user
  | assistant
deriving DecidableEq, Repr

def Role.parse (j : Json) : Option Role :=
  match j with
  | .str "user" => some .user
  | .str "assistant" => some .assistant
  | _ => none

def Role.toJson : Role → Json
  | .user => .str "user"
  | .assistant => .str "assistant"

/-- `Annotations` (src/types.rs): optional `audience`/`priority` plus a
flattened `extra` map. -/
structure Annotations where
  audience : Option (List Role)
  priority : Option JsonNum
  extra : List (String × Json)

def Annotations.parseFields (kvs : List (String × Json)) : Option Annotations := do
  let aud ← optField kvs "audience" (fun j => do
    let xs ← j.getArr?
    xs.mapM Role.parse)
  let pr ← optField kvs "priority" JsonNum.parse
  pure ⟨aud, pr, remainingKeys kvs ["audience", "priority"]⟩

def Annotations.parse (j : Json) : Option Annotations :=
  j.getObj? >>= Annotations.parseFields

def Annotations.fieldsOf (a : Annotations) : List (String × Json) :=
  optEntry "audience" a.audience (fun xs => .arr (xs.map Role.toJson)) ++
    optEntry "priority" a.priority JsonNum.toJson ++ a.extra

def Annotations.toJson (a : Annotations) : Json := .obj a.fieldsOf

/-- `Annotated` (src/types.rs): the flattened base of content and
resource types, with optional `annotations` and a flattened `extra`
map. -/
structure Annotated where
  annotations : Option Annotations
  extra : List (String × Json)

def Annotated.parseFields (kvs : List (String × Json)) : Option Annotated := do
  let an ← optField kvs "annotations" Annotations.parse
  pure ⟨an, remainingKeys kvs ["annotations"]⟩

def Annotated.fieldsOf (a : Annotated) : List (String × Json) :=
  optEntry "annotations" a.annotations Annotations.toJson ++ a.extra

/-- `TextContent` (src/types.rs): required `type` (a free string; the
derive places no constraint on its value) and `text`, over a flattened
`Annotated`. -/
structure TextContent where
  kind : String
  text : String
  annotated : Annotated

def TextContent.parseFields (kvs : List (String × Json)) : Option TextContent := do
  let k ← reqField kvs "type" Json.getStr?
  let t ← reqField kvs "text" Json.getStr?
  let a ← Annotated.parseFields (remainingKeys kvs ["type", "text"])
  pure ⟨k, t, a⟩

def TextContent.parse (j : Json) : Option TextContent :=
  j.getObj? >>= TextContent.parseFields

def TextContent.toJson (c : TextContent) : Json :=
  .obj (("type", .str c.kind) :: ("text", .str c.text) :: c.annotated.fieldsOf)

/-- `ImageContent` (src/types.rs): required `type`, `data` and
`mimeType`, over a flattened `Annotated`. -/
structure ImageContent where
  kind : String
  data : String
  mime_type : String
  annotated : Annotated

def ImageContent.parseFields (kvs : List (String × Json)) : Option ImageContent := do
  let k ← reqField kvs "type" Json.getStr?
  let d ← reqField kvs "data" Json.getStr?
  let m ← reqField kvs (renameAllCamelCase "mime_type") Json.getStr?
  let a ← Annotated.parseFields (remainingKeys kvs ["type", "data", renameAllCamelCase "mime_type"])
  pure ⟨k, d, m, a⟩

def ImageContent.parse (j : Json) : Option ImageContent :=
  j.getObj? >>= ImageContent.parseFields

def ImageContent.toJson (c : ImageContent) : Json :=
  .obj (("type", .str c.kind) :: ("data", .str c.data) ::
    (renameAllCamelCase "mime_type", .str c.mime_type) :: c.annotated.fieldsOf)

/-- `PaginatedParams` (src/types.rs): its meta field is declared as
`_meta: Option<RequestMeta>` with no explicit rename, so its wire key is
`renameAllCamelCase "_meta"` — the only meta field in the crate without
`#[serde(rename = "_meta")]`. -/
structure PaginatedParams where
  _meta : Option RequestMeta
  cursor : Option String
  extra : List (String × Json)

def PaginatedParams.parseFields (kvs : List (String × Json)) : Option PaginatedParams := do
  let m ← optField kvs (renameAllCamelCase "_meta") RequestMeta.parse
  let c ← optField kvs "cursor" Json.getStr?
  pure ⟨m, c, remainingKeys kvs [renameAllCamelCase "_meta", "cursor"]⟩

def PaginatedParams.parse (j : Json) : Option PaginatedParams :=
  j.getObj? >>= PaginatedParams.parseFields

def PaginatedParams.fieldsOf (p : PaginatedParams) : List (String × Json) :=
  optEntry (renameAllCamelCase "_meta") p._meta RequestMeta.toJson ++
    optEntry "cursor" p.cursor Json.str ++ p.extra

def PaginatedParams.toJson (p : PaginatedParams) : Json := .obj p.fieldsOf

/-- `Implementation` (src/types.rs): `name`, `version`, flattened
`extra`. -/
structure Implementation where
  name : String
  version : String
  extra : List (String × Json)

def Implementation.parseFields (kvs : List (String × Json)) : Option Implementation := do
  let n ← reqField kvs "name" Json.getStr?
  let v ← reqField kvs "version" Json.getStr?
  pure ⟨n, v, remainingKeys kvs ["name", "version"]⟩

def Implementation.parse (j : Json) : Option Implementation :=
  j.getObj? >>= Implementation.parseFields

def Implementation.fieldsOf (i : Implementation) : List (String × Json) :=
  ("name", .str i.name) :: ("version", .str i.version) :: i.extra

def Implementation.toJson (i : Implementation) : Json := .obj i.fieldsOf

/-- `RootsCapability` (src/types.rs): optional `listChanged`, no extra
map. -/
structure RootsCapability where
  list_changed : Option Bool
deriving DecidableEq, Repr

def RootsCapability.parse (j : Json) : Option RootsCapability := do
  let kvs ← j.getObj?
  let lc ← optField kvs (renameAllCamelCase "list_changed") Json.getBool?
  pure ⟨lc⟩

def RootsCapability.toJson (c : RootsCapability) : Json :=
  .obj (optEntry (renameAllCamelCase "list_changed") c.list_changed Json.bool)

/-- `ClientCapabilities` (src/types.rs). -/
structure ClientCapabilities where
  experimental : Option (List (String × Json))
  roots : Option RootsCapability
  sampling : Option (List (String × Json))
  extra : List (String × Json)

def ClientCapabilities.parseFields (kvs : List (String × Json)) :
    Option ClientCapabilities := do
  let e ← optField kvs "experimental" parseRawMap
  let r ← optField kvs "roots" RootsCapability.parse
  let s ← optField kvs "sampling" parseRawMap
  pure ⟨e, r, s, remainingKeys kvs ["experimental", "roots", "sampling"]⟩

def ClientCapabilities.parse (j : Json) : Option ClientCapabilities :=
  j.getObj? >>= ClientCapabilities.parseFields

def ClientCapabilities.toJson (c : ClientCapabilities) : Json :=
  .obj (optEntry "experimental" c.experimental Json.obj ++
    optEntry "roots" c.roots RootsCapability.toJson ++
    optEntry "sampling" c.sampling Json.obj ++ c.extra)

/-- `PromptsCapability` (src/types.rs). -/
structure PromptsCapability where
  list_changed : Option Bool
deriving DecidableEq, Repr

def PromptsCapability.parse (j : Json) : Option PromptsCapability := do
  let kvs ← j.getObj?
  let lc ← optField kvs (renameAllCamelCase "list_changed") Json.getBool?
  pure ⟨lc⟩

def PromptsCapability.toJson (c : PromptsCapability) : Json :=
  .obj (optEntry (renameAllCamelCase "list_changed") c.list_changed Json.bool)

/-- `ResourcesCapability` (src/types.rs). -/
structure ResourcesCapability where
  subscribe : Option Bool
  list_changed : Option Bool
deriving DecidableEq, Repr

def ResourcesCapability.parse (j : Json) : Option ResourcesCapability := do
  let kvs ← j.getObj?
  let s ← optField kvs "subscribe" Json.getBool?
  let lc ← optField kvs (renameAllCamelCase "list_changed") Json.getBool?
  pure ⟨s, lc⟩

def ResourcesCapability.toJson (c : ResourcesCapability) : Json :=
  .obj (optEntry "subscribe" c.subscribe Json.bool ++
    optEntry (renameAllCamelCase "list_changed") c.list_changed Json.bool)

/-- `ToolsCapability` (src/types.rs). -/
structure ToolsCapability where
  list_changed : Option Bool
deriving DecidableEq, Repr

def ToolsCapability.parse (j : Json) : Option ToolsCapability := do
  let kvs ← j.getObj?
  let lc ← optField kvs (renameAllCamelCase "list_changed") Json.getBool?
  pure ⟨lc⟩

def ToolsCapability.toJson (c : ToolsCapability) : Json :=
  .obj (optEntry (renameAllCamelCase "list_changed") c.list_changed Json.bool)

/-- `ServerCapabilities` (src/types.rs). -/
structure ServerCapabilities where
  experimental : Option (List (String × Json))
  logging : Option (List (String × Json))
  prompts : Option PromptsCapability
  resources : Option ResourcesCapability
  tools : Option ToolsCapability
  extra : List (String × Json)

def ServerCapabilities.parseFields (kvs : List (String × Json)) :
    Option ServerCapabilities := do
  let e ← optField kvs "experimental" parseRawMap
  let l ← optField kvs "logging" parseRawMap
  let p ← optField kvs "prompts" PromptsCapability.parse
  let r ← optField kvs "resources" ResourcesCapability.parse
  let t ← optField kvs "tools" ToolsCapability.parse
  pure ⟨e, l, p, r, t,
    remainingKeys kvs ["experimental", "logging", "prompts", "resources", "tools"]⟩

def ServerCapabilities.parse (j : Json) : Option ServerCapabilities :=
  j.getObj? >>= ServerCapabilities.parseFields

def ServerCapabilities.toJson (c : ServerCapabilities) : Json :=
  .obj (optEntry "experimental" c.experimental Json.obj ++
    optEntry "logging" c.logging Json.obj ++
    optEntry "prompts" c.prompts PromptsCapability.toJson ++
    optEntry "resources" c.resources ResourcesCapability.toJson ++
    optEntry "tools" c.tools ToolsCapability.toJson ++ c.extra)

/-- `InitializeParams` (src/types.rs): three required fields, no extra
map. -/
structure InitializeParams where
  protocol_version : String
  capabilities : ClientCapabilities
  client_info : Implementation

def InitializeParams.parse (j : Json) : Option InitializeParams := do
  let kvs ← j.getObj?
  let pv ← reqField kvs (renameAllCamelCase "protocol_version") Json.getStr?
  let c ← reqField kvs "capabilities" ClientCapabilities.parse
  let ci ← reqField kvs (renameAllCamelCase "client_info") Implementation.parse
  pure ⟨pv, c, ci⟩

def InitializeParams.toJson (p : InitializeParams) : Json :=
  .obj [(renameAllCamelCase "protocol_version", .str p.protocol_version),
    ("capabilities", p.capabilities.toJson),
    (renameAllCamelCase "client_info", p.client_info.toJson)]

/-- `InitializeResult` (src/types.rs). -/
structure InitializeResult where
  meta : Option (List (String × Json))
  protocol_version : String
  capabilities : ServerCapabilities
  server_info : Implementation
  instructions : Option String
  extra : List (String × Json)

def InitializeResult.parseFields (kvs : List (String × Json)) :
    Option InitializeResult := do
  let m ← optField kvs "_meta" parseRawMap
  let pv ← reqField kvs (renameAllCamelCase "protocol_version") Json.getStr?
  let c ← reqField kvs "capabilities" ServerCapabilities.parse
  let si ← reqField kvs (renameAllCamelCase "server_info") Implementation.parse
  let ins ← optField kvs "instructions" Json.getStr?
  pure ⟨m, pv, c, si, ins,
    remainingKeys kvs ["_meta", renameAllCamelCase "protocol_version",
      "capabilities", renameAllCamelCase "server_info", "instructions"]⟩

def InitializeResult.parse (j : Json) : Option InitializeResult :=
  j.getObj? >>= InitializeResult.parseFields

def InitializeResult.toJson (r : InitializeResult) : Json :=
  .obj (optEntry "_meta" r.meta Json.obj ++
    ((renameAllCamelCase "protocol_version", Json.str r.protocol_version) ::
      ("capabilities", r.capabilities.toJson) ::
      (renameAllCamelCase "server_info", r.server_info.toJson) ::
      optEntry "instructions" r.instructions Json.str) ++ r.extra)

/-- `TextResourceContents` (src/types.rs): `uri`, optional `mimeType`,
required `text`; no extra map, so unknown keys are ignored. -/
structure TextResourceContents where
  uri : String
  mime_type : Option String
  text : String
deriving DecidableEq, Repr

def TextResourceContents.parse (j : Json) : Option TextResourceContents := do
  let kvs ← j.getObj?
  let u ← reqField kvs "uri" Json.getStr?
  let m ← optField kvs (renameAllCamelCase "mime_type") Json.getStr?
  let t ← reqField kvs "text" Json.getStr?
  pure ⟨u, m, t⟩

def TextResourceContents.toJson (r : TextResourceContents) : Json :=
  .obj (("uri", .str r.uri) ::
    optEntry (renameAllCamelCase "mime_type") r.mime_type Json.str ++
    [("text", .str r.text)])

/-- `BlobResourceContents` (src/types.rs): `uri`, optional `mimeType`,
required `blob`; no extra map. -/
structure BlobResourceContents where
  uri : String
  mime_type : Option String
  blob : String
deriving DecidableEq, Repr

def BlobResourceContents.parse (j : Json) : Option BlobResourceContents := do
  let kvs ← j.getObj?
  let u ← reqField kvs "uri" Json.getStr?
  let m ← optField kvs (renameAllCamelCase "mime_type") Json.getStr?
  let b ← reqField kvs "blob" Json.getStr?
  pure ⟨u, m, b⟩

def BlobResourceContents.toJson (r : BlobResourceContents) : Json :=
  .obj (("uri", .str r.uri) ::
    optEntry (renameAllCamelCase "mime_type") r.mime_type Json.str ++
    [("blob", .str r.blob)])

/-- `ResourceContents` (src/types.rs): `#[serde(untagged)]`, trying
`Text` then `Blob` in declaration order. -/
inductive ResourceContents where
  | text (r : TextResourceContents)
  | blob (r : BlobResourceContents)
deriving DecidableEq, Repr

def ResourceContents.parse (j : Json) : Option ResourceContents :=
  (TextResourceContents.parse j).map ResourceContents.text <|>
    (BlobResourceContents.parse j).map ResourceContents.blob

def ResourceContents.toJson : ResourceContents → Json
  | .text r => r.toJson
  | .blob r => r.toJson

/-- `Resource` (src/types.rs). -/
structure Resource where
  uri : String
  name : String
  description : Option String
  mime_type : Option String
  annotated : Annotated

def Resource.parseFields (kvs : List (String × Json)) : Option Resource := do
  let u ← reqField kvs "uri" Json.getStr?
  let n ← reqField kvs "name" Json.getStr?
  let d ← optField kvs "description" Json.getStr?
  let m ← optField kvs (renameAllCamelCase "mime_type") Json.getStr?
  let a ← Annotated.parseFields
    (remainingKeys kvs ["uri", "name", "description", renameAllCamelCase "mime_type"])
  pure ⟨u, n, d, m, a⟩

def Resource.parse (j : Json) : Option Resource :=
  j.getObj? >>= Resource.parseFields

def Resource.toJson (r : Resource) : Json :=
  .obj (("uri", .str r.uri) :: ("name", .str r.name) ::
    (optEntry "description" r.description Json.str ++
      optEntry (renameAllCamelCase "mime_type") r.mime_type Json.str ++
      r.annotated.fieldsOf))

/-- `ResourceTemplate` (src/types.rs). -/
structure ResourceTemplate where
  uri_template : String
  name : String
  description : Option String
  mime_type : Option String
  annotated : Annotated

def ResourceTemplate.parseFields (kvs : List (String × Json)) :
    Option ResourceTemplate := do
  let u ← reqField kvs (renameAllCamelCase "uri_template") Json.getStr?
  let n ← reqField kvs "name" Json.getStr?
  let d ← optField kvs "description" Json.getStr?
  let m ← optField kvs (renameAllCamelCase "mime_type") Json.getStr?
  let a ← Annotated.parseFields
    (remainingKeys kvs [renameAllCamelCase "uri_template", "name", "description",
      renameAllCamelCase "mime_type"])
  pure ⟨u, n, d, m, a⟩

def ResourceTemplate.parse (j : Json) : Option ResourceTemplate :=
  j.getObj? >>= ResourceTemplate.parseFields

def ResourceTemplate.toJson (r : ResourceTemplate) : Json :=
  .obj ((renameAllCamelCase "uri_template", Json.str r.uri_template) ::
    ("name", .str r.name) ::
    (optEntry "description" r.description Json.str ++
      optEntry (renameAllCamelCase "mime_type") r.mime_type Json.str ++
      r.annotated.fieldsOf))

/-- `ListResourcesResult` (src/types.rs). -/
structure ListResourcesResult where
  meta : Option (List (String × Json))
  next_cursor : Option String
  resources : List Resource
  extra : List (String × Json)

def ListResourcesResult.parseFields (kvs : List (String × Json)) :
    Option ListResourcesResult := do
  let m ← optField kvs "_meta" parseRawMap
  let nc ← optField kvs (renameAllCamelCase "next_cursor") Json.getStr?
  let rsj ← reqField kvs "resources" Json.getArr?
  let rs ← rsj.mapM Resource.parse
  pure ⟨m, nc, rs,
    remainingKeys kvs ["_meta", renameAllCamelCase "next_cursor", "resources"]⟩

def ListResourcesResult.parse (j : Json) : Option ListResourcesResult :=
  j.getObj? >>= ListResourcesResult.parseFields

def ListResourcesResult.toJson (r : ListResourcesResult) : Json :=
  .obj (optEntry "_meta" r.meta Json.obj ++
    optEntry (renameAllCamelCase "next_cursor") r.next_cursor Json.str ++
    ("resources", Json.arr (r.resources.map Resource.toJson)) :: r.extra)

/-- `ListResourceTemplatesResult` (src/types.rs). -/
structure ListResourceTemplatesResult where
  meta : Option (List (String × Json))
  next_cursor : Option String
  resource_templates : List ResourceTemplate
  extra : List (String × Json)

def ListResourceTemplatesResult.parseFields (kvs : List (String × Json)) :
    Option ListResourceTemplatesResult := do
  let m ← optField kvs "_meta" parseRawMap
  let nc ← optField kvs (renameAllCamelCase "next_cursor") Json.getStr?
  let rsj ← reqField kvs (renameAllCamelCase "resource_templates") Json.getArr?
  let rs ← rsj.mapM ResourceTemplate.parse
  pure ⟨m, nc, rs,
    remainingKeys kvs ["_meta", renameAllCamelCase "next_cursor",
      renameAllCamelCase "resource_templates"]⟩

def ListResourceTemplatesResult.parse (j : Json) : Option ListResourceTemplatesResult :=
  j.getObj? >>= ListResourceTemplatesResult.parseFields

def ListResourceTemplatesResult.toJson (r : ListResourceTemplatesResult) : Json :=
  .obj (optEntry "_meta" r.meta Json.obj ++
    optEntry (renameAllCamelCase "next_cursor") r.next_cursor Json.str ++
    (renameAllCamelCase "resource_templates",
      Json.arr (r.resource_templates.map ResourceTemplate.toJson)) :: r.extra)

/-- `ReadResourceParams` (src/types.rs). -/
structure ReadResourceParams where
  uri : String
  extra : List (String × Json)

def ReadResourceParams.parse (j : Json) : Option ReadResourceParams := do
  let kvs ← j.getObj?
  let u ← reqField kvs "uri" Json.getStr?
  pure ⟨u, remainingKeys kvs ["uri"]⟩

def ReadResourceParams.toJson (p : ReadResourceParams) : Json :=
  .obj (("uri", .str p.uri) :: p.extra)

/-- `ReadResourceResult` (src/types.rs). -/
structure ReadResourceResult where
  meta : Option (List (String × Json))
  contents : List ResourceContents
  extra : List (String × Json)

def ReadResourceResult.parseFields (kvs : List (String × Json)) :
    Option ReadResourceResult := do
  let m ← optField kvs "_meta" parseRawMap
  let csj ← reqField kvs "contents" Json.getArr?
  let cs ← csj.mapM ResourceContents.parse
  pure ⟨m, cs, remainingKeys kvs ["_meta", "contents"]⟩

def ReadResourceResult.parse (j : Json) : Option ReadResourceResult :=
  j.getObj? >>= ReadResourceResult.parseFields

def ReadResourceResult.toJson (r : ReadResourceResult) : Json :=
  .obj (optEntry "_meta" r.meta Json.obj ++
    ("contents", Json.arr (r.contents.map ResourceContents.toJson)) :: r.extra)

/-- `SubscribeParams` (src/types.rs). -/
structure SubscribeParams where
  uri : String
  extra : List (String × Json)

def SubscribeParams.parse (j : Json) : Option SubscribeParams := do
  let kvs ← j.getObj?
  let u ← reqField kvs "uri" Json.getStr?
  pure ⟨u, remainingKeys kvs ["uri"]⟩

def SubscribeParams.toJson (p : SubscribeParams) : Json :=
  .obj (("uri", .str p.uri) :: p.extra)

/-- `UnsubscribeParams` (src/types.rs). -/
structure UnsubscribeParams where
  uri : String
  extra : List (String × Json)

def UnsubscribeParams.parse (j : Json) : Option UnsubscribeParams := do
  let kvs ← j.getObj?
  let u ← reqField kvs "uri" Json.getStr?
  pure ⟨u, remainingKeys kvs ["uri"]⟩

def UnsubscribeParams.toJson (p : UnsubscribeParams) : Json :=
  .obj (("uri", .str p.uri) :: p.extra)

/-- `ResourceUpdatedParams` (src/types.rs). -/
structure ResourceUpdatedParams where
  uri : String
  extra : List (String × Json)

def ResourceUpdatedParams.parse (j : Json) : Option ResourceUpdatedParams := do
  let kvs ← j.getObj?
  let u ← reqField kvs "uri" Json.getStr?
  pure ⟨u, remainingKeys kvs ["uri"]⟩

def ResourceUpdatedParams.toJson (p : ResourceUpdatedParams) : Json :=
  .obj (("uri", .str p.uri) :: p.extra)

/-- `EmbeddedResource` (src/types.rs): required `type` (a free string)
and `resource`, over a flattened `Annotated`. -/
structure EmbeddedResource where
  kind : String
  resource : ResourceContents
  annotated : Annotated

def EmbeddedResource.parseFields (kvs : List (String × Json)) :
    Option EmbeddedResource := do
  let k ← reqField kvs "type" Json.getStr?
  let r ← reqField kvs "resource" ResourceContents.parse
  let a ← Annotated.parseFields (remainingKeys kvs ["type", "resource"])
  pure ⟨k, r, a⟩

def EmbeddedResource.parse (j : Json) : Option EmbeddedResource :=
  j.getObj? >>= EmbeddedResource.parseFields

def EmbeddedResource.toJson (c : EmbeddedResource) : Json :=
  .obj (("type", .str c.kind) :: ("resource", c.resource.toJson) ::
    c.annotated.fieldsOf)

/-- `PromptContent` (src/types.rs): `#[serde(untagged)]`, trying
`Text`, `Image`, `Resource` in declaration order; the first variant
whose required fields are present wins. -/
inductive PromptContent where
  | text (c : TextContent)
  | image (c : ImageContent)
  | resource (c : EmbeddedResource)

def PromptContent.parse (j : Json) : Option PromptContent :=
  (TextContent.parse j).map PromptContent.text <|>
    (ImageContent.parse j).map PromptContent.image <|>
    (EmbeddedResource.parse j).map PromptContent.resource

def PromptContent.toJson : PromptContent → Json
  | .text c => c.toJson
  | .image c => c.toJson
  | .resource c => c.toJson

/-- `PromptArgument` (src/types.rs). -/
structure PromptArgument where
  name : String
  description : Option String
  required : Option Bool
  extra : List (String × Json)

def PromptArgument.parse (j : Json) : Option PromptArgument := do
  let kvs ← j.getObj?
  let n ← reqField kvs "name" Json.getStr?
  let d ← optField kvs "description" Json.getStr?
  let r ← optField kvs "required" Json.getBool?
  pure ⟨n, d, r, remainingKeys kvs ["name", "description", "required"]⟩

def PromptArgument.toJson (a : PromptArgument) : Json :=
  .obj (("name", .str a.name) ::
    (optEntry "description" a.description Json.str ++
      optEntry "required" a.required Json.bool ++ a.extra))

/-- `Prompt` (src/types.rs). -/
structure Prompt where
  name : String
  description : Option String
  arguments : Option (List PromptArgument)
  extra : List (String × Json)

def Prompt.parse (j : Json) : Option Prompt := do
  let kvs ← j.getObj?
  let n ← reqField kvs "name" Json.getStr?
  let d ← optField kvs "description" Json.getStr?
  let args ← optField kvs "arguments" (fun v => do
    let xs ← v.getArr?
    xs.mapM PromptArgument.parse)
  pure ⟨n, d, args, remainingKeys kvs ["name", "description", "arguments"]⟩

def Prompt.toJson (p : Prompt) : Json :=
  .obj (("name", .str p.name) ::
    (optEntry "description" p.description Json.str ++
      optEntry "arguments" p.arguments
        (fun xs => .arr (xs.map PromptArgument.toJson)) ++ p.extra))

/-- `PromptMessage` (src/types.rs): `role` and `content`, no extra
map. -/
structure PromptMessage where
  role : Role
  content : PromptContent

def PromptMessage.parse (j : Json) : Option PromptMessage := do
  let kvs ← j.getObj?
  let r ← reqField kvs "role" Role.parse
  let c ← reqField kvs "content" PromptContent.parse
  pure ⟨r, c⟩

def PromptMessage.toJson (m : PromptMessage) : Json :=
  .obj [("role", m.role.toJson), ("content", m.content.toJson)]

/-- `GetPromptParams` (src/types.rs). -/
structure GetPromptParams where
  name : String
  arguments : Option (List (String × String))
  extra : List (String × Json)

def GetPromptParams.parse (j : Json) : Option GetPromptParams := do
  let kvs ← j.getObj?
  let n ← reqField kvs "name" Json.getStr?
  let args ← optField kvs "arguments" parseStringMap
  pure ⟨n, args, remainingKeys kvs ["name", "arguments"]⟩

def GetPromptParams.toJson (p : GetPromptParams) : Json :=
  .obj (("name", .str p.name) ::
    (optEntry "arguments" p.arguments stringMapToJson ++ p.extra))

/-- `GetPromptResult` (src/types.rs). -/
structure GetPromptResult where
  meta : Option (List (String × Json))
  description : Option String
  messages : List PromptMessage
  extra : List (String × Json)

def GetPromptResult.parseFields (kvs : List (String × Json)) :
    Option GetPromptResult := do
  let m ← optField kvs "_meta" parseRawMap
  let d ← optField kvs "description" Json.getStr?
  let msj ← reqField kvs "messages" Json.getArr?
  let ms ← msj.mapM PromptMessage.parse
  pure ⟨m, d, ms, remainingKeys kvs ["_meta", "description", "messages"]⟩

def GetPromptResult.parse (j : Json) : Option GetPromptResult :=
  j.getObj? >>= GetPromptResult.parseFields

def GetPromptResult.toJson (r : GetPromptResult) : Json :=
  .obj (optEntry "_meta" r.meta Json.obj ++
    optEntry "description" r.description Json.str ++
    ("messages", Json.arr (r.messages.map PromptMessage.toJson)) :: r.extra)

/-- `ListPromptsResult` (src/types.rs). -/
structure ListPromptsResult where
  meta : Option (List (String × Json))
  next_cursor : Option String
  prompts : List Prompt
  extra : List (String × Json)

def ListPromptsResult.parseFields (kvs : List (String × Json)) :
    Option ListPromptsResult := do
  let m ← optField kvs "_meta" parseRawMap
  let nc ← optField kvs (renameAllCamelCase "next_cursor") Json.getStr?
  let psj ← reqField kvs "prompts" Json.getArr?
  let ps ← psj.mapM Prompt.parse
  pure ⟨m, nc, ps,
    remainingKeys kvs ["_meta", renameAllCamelCase "next_cursor", "prompts"]⟩

def ListPromptsResult.parse (j : Json) : Option ListPromptsResult :=
  j.getObj? >>= ListPromptsResult.parseFields

def ListPromptsResult.toJson (r : ListPromptsResult) : Json :=
  .obj (optEntry "_meta" r.meta Json.obj ++
    optEntry (renameAllCamelCase "next_cursor") r.next_cursor Json.str ++
    ("prompts", Json.arr (r.prompts.map Prompt.toJson)) :: r.extra)

/-- `ToolInputSchema` (src/types.rs): required `type`, optional
`properties`/`required`; no extra map. -/
structure ToolInputSchema where
  type_ : String
  properties : Option (List (String × Json))
  required : Option (List String)

def ToolInputSchema.parse (j : Json) : Option ToolInputSchema := do
  let kvs ← j.getObj?
  let t ← reqField kvs "type" Json.getStr?
  let p ← optField kvs "properties" parseRawMap
  let r ← optField kvs "required" parseStringList
  pure ⟨t, p, r⟩

def ToolInputSchema.toJson (s : ToolInputSchema) : Json :=
  .obj (("type", .str s.type_) ::
    (optEntry "properties" s.properties Json.obj ++
      optEntry "required" s.required stringListToJson))

/-- `ToolAnnotations` (src/types.rs): five optional hints, no extra
map. -/
structure ToolAnnotations where
  title : Option String
  read_only_hint : Option Bool
  destructive_hint : Option Bool
  idempotent_hint : Option Bool
  open_world_hint : Option Bool
deriving DecidableEq, Repr

def ToolAnnotations.parse (j : Json) : Option ToolAnnotations := do
  let kvs ← j.getObj?
  let t ← optField kvs "title" Json.getStr?
  let ro ← optField kvs (renameAllCamelCase "read_only_hint") Json.getBool?
  let de ← optField kvs (renameAllCamelCase "destructive_hint") Json.getBool?
  let idh ← optField kvs (renameAllCamelCase "idempotent_hint") Json.getBool?
  let ow ← optField kvs (renameAllCamelCase "open_world_hint") Json.getBool?
  pure ⟨t, ro, de, idh, ow⟩

def ToolAnnotations.toJson (a : ToolAnnotations) : Json :=
  .obj (optEntry "title" a.title Json.str ++
    optEntry (renameAllCamelCase "read_only_hint") a.read_only_hint Json.bool ++
    optEntry (renameAllCamelCase "destructive_hint") a.destructive_hint Json.bool ++
    optEntry (renameAllCamelCase "idempotent_hint") a.idempotent_hint Json.bool ++
    optEntry (renameAllCamelCase "open_world_hint") a.open_world_hint Json.bool)

/-- `Tool` (src/types.rs). -/
structure Tool where
  name : String
  title : Option String
  description : Option String
  input_schema : ToolInputSchema
  output_schema : Option Json
  annotations : Option ToolAnnotations
  extra : List (String × Json)

def Tool.parse (j : Json) : Option Tool := do
  let kvs ← j.getObj?
  let n ← reqField kvs "name" Json.getStr?
  let t ← optField kvs "title" Json.getStr?
  let d ← optField kvs "description" Json.getStr?
  let is_ ← reqField kvs (renameAllCamelCase "input_schema") ToolInputSchema.parse
  let os ← optField kvs (renameAllCamelCase "output_schema") parseAnyJson
  let an ← optField kvs "annotations" ToolAnnotations.parse
  pure ⟨n, t, d, is_, os, an,
    remainingKeys kvs ["name", "title", "description",
      renameAllCamelCase "input_schema", renameAllCamelCase "output_schema",
      "annotations"]⟩

def Tool.toJson (t : Tool) : Json :=
  .obj (("name", .str t.name) ::
    (optEntry "title" t.title Json.str ++
      optEntry "description" t.description Json.str ++
      (renameAllCamelCase "input_schema", t.input_schema.toJson) ::
      optEntry (renameAllCamelCase "output_schema") t.output_schema id ++
      optEntry "annotations" t.annotations ToolAnnotations.toJson ++ t.extra))

/-- `CallToolParams` (src/types.rs). -/
structure CallToolParams where
  name : String
  arguments : Option (List (String × Json))
  extra : List (String × Json)

def CallToolParams.parse (j : Json) : Option CallToolParams := do
  let kvs ← j.getObj?
  let n ← reqField kvs "name" Json.getStr?
  let args ← optField kvs "arguments" parseRawMap
  pure ⟨n, args, remainingKeys kvs ["name", "arguments"]⟩

def CallToolParams.toJson (p : CallToolParams) : Json :=
  .obj (("name", .str p.name) ::
    (optEntry "arguments" p.arguments Json.obj ++ p.extra))

/-- `CallToolResult` (src/types.rs): required `content` array, optional
`structuredContent` and `isError`, flattened `extra`. -/
structure CallToolResult where
  meta : Option (List (String × Json))
  content : List PromptContent
  structured_content : Option Json
  is_error : Option Bool
  extra : List (String × Json)

def CallToolResult.parseFields (kvs : List (String × Json)) :
    Option CallToolResult := do
  let m ← optField kvs "_meta" parseRawMap
  let csj ← reqField kvs "content" Json.getArr?
  let cs ← csj.mapM PromptContent.parse
  let sc ← optField kvs (renameAllCamelCase "structured_content") parseAnyJson
  let ie ← optField kvs (renameAllCamelCase "is_error") Json.getBool?
  pure ⟨m, cs, sc, ie,
    remainingKeys kvs ["_meta", "content", renameAllCamelCase "structured_content",
      renameAllCamelCase "is_error"]⟩

def CallToolResult.parse (j : Json) : Option CallToolResult :=
  j.getObj? >>= CallToolResult.parseFields

def CallToolResult.toJson (r : CallToolResult) : Json :=
  .obj (optEntry "_meta" r.meta Json.obj ++
    ("content", Json.arr (r.content.map PromptContent.toJson)) ::
    (optEntry (renameAllCamelCase "structured_content") r.structured_content id ++
      optEntry (renameAllCamelCase "is_error") r.is_error Json.bool ++ r.extra))

/-- `ListToolsResult` (src/types.rs). -/
structure ListToolsResult where
  meta : Option (List (String × Json))
  next_cursor : Option String
  tools : List Tool
  extra : List (String × Json)

def ListToolsResult.parseFields (kvs : List (String × Json)) :
    Option ListToolsResult := do
  let m ← optField kvs "_meta" parseRawMap
  let nc ← optField kvs (renameAllCamelCase "next_cursor") Json.getStr?
  let tsj ← reqField kvs "tools" Json.getArr?
  let ts ← tsj.mapM Tool.parse
  pure ⟨m, nc, ts,
    remainingKeys kvs ["_meta", renameAllCamelCase "next_cursor", "tools"]⟩

def ListToolsResult.parse (j : Json) : Option ListToolsResult :=
  j.getObj? >>= ListToolsResult.parseFields

def ListToolsResult.toJson (r : ListToolsResult) : Json :=
  .obj (optEntry "_meta" r.meta Json.obj ++
    optEntry (renameAllCamelCase "next_cursor") r.next_cursor Json.str ++
    ("tools", Json.arr (r.tools.map Tool.toJson)) :: r.extra)

/-- `LoggingLevel` (src/types.rs): `rename_all = "lowercase"` enum of
the eight syslog levels. -/
inductive LoggingLevel where
  | debug | info | notice | warning | error | critical | alert | emergency
deriving DecidableEq, Repr

def LoggingLevel.parse (j : Json) : Option LoggingLevel :=
  match j with
  | .str "debug" => some .debug
  | .str "info" => some .info
  | .str "notice" => some .notice
  | .str "warning" => some .warning
  | .str "error" => some .error
  | .str "critical" => some .critical
  | .str "alert" => some .alert
  | .str "emergency" => some .emergency
  | _ => none

def LoggingLevel.toJson : LoggingLevel → Json
  | .debug => .str "debug"
  | .info => .str "info"
  | .notice => .str "notice"
  | .warning => .str "warning"
  | .error => .str "error"
  | .critical => .str "critical"
  | .alert => .str "alert"
  | .emergency => .str "emergency"

/-- `SetLevelParams` (src/types.rs). -/
structure SetLevelParams where
  level : LoggingLevel
  extra : List (String × Json)

def SetLevelParams.parse (j : Json) : Option SetLevelParams := do
  let kvs ← j.getObj?
  let l ← reqField kvs "level" LoggingLevel.parse
  pure ⟨l, remainingKeys kvs ["level"]⟩

def SetLevelParams.toJson (p : SetLevelParams) : Json :=
  .obj (("level", p.level.toJson) :: p.extra)

/-- `LoggingMessageParams` (src/types.rs). -/
structure LoggingMessageParams where
  level : LoggingLevel
  logger : Option String
  data : Json
  extra : List (String × Json)

def LoggingMessageParams.parse (j : Json) : Option LoggingMessageParams := do
  let kvs ← j.getObj?
  let l ← reqField kvs "level" LoggingLevel.parse
  let lg ← optField kvs "logger" Json.getStr?
  let d ← reqField kvs "data" parseAnyJson
  pure ⟨l, lg, d, remainingKeys kvs ["level", "logger", "data"]⟩

def LoggingMessageParams.toJson (p : LoggingMessageParams) : Json :=
  .obj (("level", p.level.toJson) ::
    (optEntry "logger" p.logger Json.str ++ ("data", p.data) :: p.extra))

/-- `SamplingContent` (src/types.rs): `#[serde(untagged)]`, trying
`Text` then `Image` in declaration order. -/
inductive SamplingContent where
  | text (c : TextContent)
  | image (c : ImageContent)

def SamplingContent.parse (j : Json) : Option SamplingContent :=
  (TextContent.parse j).map SamplingContent.text <|>
    (ImageContent.parse j).map SamplingContent.image

def SamplingContent.toJson : SamplingContent → Json
  | .text c => c.toJson
  | .image c => c.toJson

/-- `SamplingMessage` (src/types.rs): `role` and `content`, no extra
map. -/
structure SamplingMessage where
  role : Role
  content : SamplingContent

def SamplingMessage.parse (j : Json) : Option SamplingMessage := do
  let kvs ← j.getObj?
  let r ← reqField kvs "role" Role.parse
  let c ← reqField kvs "content" SamplingContent.parse
  pure ⟨r, c⟩

def SamplingMessage.toJson (m : SamplingMessage) : Json :=
  .obj [("role", m.role.toJson), ("content", m.content.toJson)]

/-- `ModelHint` (src/types.rs). -/
structure ModelHint where
  name : Option String
  extra : List (String × Json)

def ModelHint.parse (j : Json) : Option ModelHint := do
  let kvs ← j.getObj?
  let n ← optField kvs "name" Json.getStr?
  pure ⟨n, remainingKeys kvs ["name"]⟩

def ModelHint.toJson (h : ModelHint) : Json :=
  .obj (optEntry "name" h.name Json.str ++ h.extra)

/-- `ModelPreferences` (src/types.rs). -/
structure ModelPreferences where
  hints : Option (List ModelHint)
  cost_priority : Option JsonNum
  speed_priority : Option JsonNum
  intelligence_priority : Option JsonNum
  extra : List (String × Json)

def ModelPreferences.parse (j : Json) : Option ModelPreferences := do
  let kvs ← j.getObj?
  let h ← optField kvs "hints" (fun v => do
    let xs ← v.getArr?
    xs.mapM ModelHint.parse)
  let cp ← optField kvs (renameAllCamelCase "cost_priority") JsonNum.parse
  let sp ← optField kvs (renameAllCamelCase "speed_priority") JsonNum.parse
  let ip ← optField kvs (renameAllCamelCase "intelligence_priority") JsonNum.parse
  pure ⟨h, cp, sp, ip,
    remainingKeys kvs ["hints", renameAllCamelCase "cost_priority",
      renameAllCamelCase "speed_priority", renameAllCamelCase "intelligence_priority"]⟩

def ModelPreferences.toJson (p : ModelPreferences) : Json :=
  .obj (optEntry "hints" p.hints (fun xs => .arr (xs.map ModelHint.toJson)) ++
    optEntry (renameAllCamelCase "cost_priority") p.cost_priority JsonNum.toJson ++
    optEntry (renameAllCamelCase "speed_priority") p.speed_priority JsonNum.toJson ++
    optEntry (renameAllCamelCase "intelligence_priority") p.intelligence_priority
      JsonNum.toJson ++ p.extra)

/-- `CreateMessageParams` (src/types.rs). -/
structure CreateMessageParams where
  messages : List SamplingMessage
  model_preferences : Option ModelPreferences
  system_prompt : Option String
  include_context : Option String
  temperature : Option JsonNum
  max_tokens : Int
  stop_sequences : Option (List String)
  metadata : Option (List (String × Json))
  extra : List (String × Json)

def CreateMessageParams.parse (j : Json) : Option CreateMessageParams := do
  let kvs ← j.getObj?
  let msj ← reqField kvs "messages" Json.getArr?
  let ms ← msj.mapM SamplingMessage.parse
  let mp ← optField kvs (renameAllCamelCase "model_preferences") ModelPreferences.parse
  let sp ← optField kvs (renameAllCamelCase "system_prompt") Json.getStr?
  let ic ← optField kvs (renameAllCamelCase "include_context") Json.getStr?
  let t ← optField kvs "temperature" JsonNum.parse
  let mt ← reqField kvs (renameAllCamelCase "max_tokens") Json.getInt?
  let ss ← optField kvs (renameAllCamelCase "stop_sequences") parseStringList
  let md ← optField kvs "metadata" parseRawMap
  pure ⟨ms, mp, sp, ic, t, mt, ss, md,
    remainingKeys kvs ["messages", renameAllCamelCase "model_preferences",
      renameAllCamelCase "system_prompt", renameAllCamelCase "include_context",
      "temperature", renameAllCamelCase "max_tokens",
      renameAllCamelCase "stop_sequences", "metadata"]⟩

def CreateMessageParams.toJson (p : CreateMessageParams) : Json :=
  .obj (("messages", Json.arr (p.messages.map SamplingMessage.toJson)) ::
    (optEntry (renameAllCamelCase "model_preferences") p.model_preferences
      ModelPreferences.toJson ++
      optEntry (renameAllCamelCase "system_prompt") p.system_prompt Json.str ++
      optEntry (renameAllCamelCase "include_context") p.include_context Json.str ++
      optEntry "temperature" p.temperature JsonNum.toJson ++
      (renameAllCamelCase "max_tokens", Json.int p.max_tokens) ::
      optEntry (renameAllCamelCase "stop_sequences") p.stop_sequences
        stringListToJson ++
      optEntry "metadata" p.metadata Json.obj ++ p.extra))

/-- `ReferenceType` (src/types.rs): `#[serde(tag = "type")]` with
renames `ref/resource` and `ref/prompt`. -/
inductive ReferenceType where
  | resource (uri : String)
  | prompt (name : String)
deriving DecidableEq, Repr

def ReferenceType.parse (j : Json) : Option ReferenceType := do
  let kvs ← j.getObj?
  let t ← reqField kvs "type" Json.getStr?
  if t = "ref/resource" then do
    let u ← reqField kvs "uri" Json.getStr?
    pure (.resource u)
  else if t = "ref/prompt" then do
    let n ← reqField kvs "name" Json.getStr?
    pure (.prompt n)
  else none

def ReferenceType.toJson : ReferenceType → Json
  | .resource u => .obj [("type", .str "ref/resource"), ("uri", .str u)]
  | .prompt n => .obj [("type", .str "ref/prompt"), ("name", .str n)]

/-- `CompleteArgument` (src/types.rs). -/
structure CompleteArgument where
  name : String
  value : String
  extra : List (String × Json)

def CompleteArgument.parse (j : Json) : Option CompleteArgument := do
  let kvs ← j.getObj?
  let n ← reqField kvs "name" Json.getStr?
  let v ← reqField kvs "value" Json.getStr?
  pure ⟨n, v, remainingKeys kvs ["name", "value"]⟩

def CompleteArgument.toJson (a : CompleteArgument) : Json :=
  .obj (("name", .str a.name) :: ("value", .str a.value) :: a.extra)

/-- `CompleteParams` (src/types.rs): the reference field has an
explicit `rename = "ref"`. -/
structure CompleteParams where
  ref : ReferenceType
  argument : CompleteArgument
  extra : List (String × Json)

def CompleteParams.parse (j : Json) : Option CompleteParams := do
  let kvs ← j.getObj?
  let r ← reqField kvs "ref" ReferenceType.parse
  let a ← reqField kvs "argument" CompleteArgument.parse
  pure ⟨r, a, remainingKeys kvs ["ref", "argument"]⟩

def CompleteParams.toJson (p : CompleteParams) : Json :=
  .obj (("ref", p.ref.toJson) :: ("argument", p.argument.toJson) :: p.extra)

/-- `CompletionData` (src/types.rs): required `values`, optional
`total`/`hasMore`; no extra map. -/
structure CompletionData where
  values : List String
  total : Option Int
  has_more : Option Bool
deriving DecidableEq, Repr

def CompletionData.parse (j : Json) : Option CompletionData := do
  let kvs ← j.getObj?
  let vs ← reqField kvs "values" parseStringList
  let t ← optField kvs "total" Json.getInt?
  let hm ← optField kvs (renameAllCamelCase "has_more") Json.getBool?
  pure ⟨vs, t, hm⟩

def CompletionData.toJson (d : CompletionData) : Json :=
  .obj (("values", stringListToJson d.values) ::
    (optEntry "total" d.total Json.int ++
      optEntry (renameAllCamelCase "has_more") d.has_more Json.bool))

/-- `CompleteResult` (src/types.rs). -/
structure CompleteResult where
  meta : Option (List (String × Json))
  completion : CompletionData
  extra : List (String × Json)

def CompleteResult.parseFields (kvs : List (String × Json)) :
    Option CompleteResult := do
  let m ← optField kvs "_meta" parseRawMap
  let c ← reqField kvs "completion" CompletionData.parse
  pure ⟨m, c, remainingKeys kvs ["_meta", "completion"]⟩

def CompleteResult.parse (j : Json) : Option CompleteResult :=
  j.getObj? >>= CompleteResult.parseFields

def CompleteResult.toJson (r : CompleteResult) : Json :=
  .obj (optEntry "_meta" r.meta Json.obj ++
    ("completion", r.completion.toJson) :: r.extra)

/-- `ListRootsParams` (src/types.rs): only a flattened `extra` map;
derives `Default`. -/
structure ListRootsParams where
  extra : List (String × Json)

def ListRootsParams.parse (j : Json) : Option ListRootsParams :=
  j.getObj?.map (fun kvs => ⟨kvs⟩)

def ListRootsParams.default : ListRootsParams := ⟨[]⟩

def ListRootsParams.toJson (p : ListRootsParams) : Json := .obj p.extra

/-- `CancelledNotificationParams` (src/types.rs): required `requestId`,
optional `reason`; no extra map. -/
structure CancelledNotificationParams where
  request_id : RequestId
  reason : Option String
deriving DecidableEq, Repr

def CancelledNotificationParams.parse (j : Json) :
    Option CancelledNotificationParams := do
  let kvs ← j.getObj?
  let rid ← reqField kvs (renameAllCamelCase "request_id") RequestId.parse
  let r ← optField kvs "reason" Json.getStr?
  pure ⟨rid, r⟩

def CancelledNotificationParams.toJson (p : CancelledNotificationParams) : Json :=
  .obj ((renameAllCamelCase "request_id", p.request_id.toJson) ::
    optEntry "reason" p.reason Json.str)

/-- `ProgressNotificationParams` (src/types.rs): the token field has an
explicit `rename = "progressToken"` in src/types.rs. -/
structure ProgressNotificationParams where
  progress_token : ProgressToken
  progress : JsonNum
  total : Option JsonNum
  extra : List (String × Json)

def ProgressNotificationParams.parse (j : Json) :
    Option ProgressNotificationParams := do
  let kvs ← j.getObj?
  let pt ← reqField kvs "progressToken" ProgressToken.parse
  let p ← reqField kvs "progress" JsonNum.parse
  let t ← optField kvs "total" JsonNum.parse
  pure ⟨pt, p, t, remainingKeys kvs ["progressToken", "progress", "total"]⟩

def ProgressNotificationParams.toJson (p : ProgressNotificationParams) : Json :=
  .obj (("progressToken", p.progress_token.toJson) ::
    ("progress", p.progress.toJson) ::
    (optEntry "total" p.total JsonNum.toJson ++ p.extra))

/-- `ElicitationAction` (src/types.rs): `rename_all = "lowercase"`. -/
inductive ElicitationAction where
  | accept | reject | cancel
deriving DecidableEq, Repr

def ElicitationAction.parse (j : Json) : Option ElicitationAction :=
  match j with
  | .str "accept" => some .accept
  | .str "reject" => some .reject
  | .str "cancel" => some .cancel
  | _ => none

def ElicitationAction.toJson : ElicitationAction → Json
  | .accept => .str "accept"
  | .reject => .str "reject"
  | .cancel => .str "cancel"

/-- `ElicitationCreateParams` (src/types.rs). -/
structure ElicitationCreateParams where
  message : String
  requested_schema : Json
  extra : List (String × Json)

def ElicitationCreateParams.parse (j : Json) : Option ElicitationCreateParams := do
  let kvs ← j.getObj?
  let m ← reqField kvs "message" Json.getStr?
  let rs ← reqField kvs (renameAllCamelCase "requested_schema") parseAnyJson
  pure ⟨m, rs, remainingKeys kvs ["message", renameAllCamelCase "requested_schema"]⟩

def ElicitationCreateParams.toJson (p : ElicitationCreateParams) : Json :=
  .obj (("message", .str p.message) ::
    (renameAllCamelCase "requested_schema", p.requested_schema) :: p.extra)

/-- `ElicitationCreateResult` (src/types.rs). -/
structure ElicitationCreateResult where
  action : ElicitationAction
  content : Option Json
  extra : List (String × Json)

def ElicitationCreateResult.parseFields (kvs : List (String × Json)) :
    Option ElicitationCreateResult := do
  let a ← reqField kvs "action" ElicitationAction.parse
  let c ← optField kvs "content" parseAnyJson
  pure ⟨a, c, remainingKeys kvs ["action", "content"]⟩

def ElicitationCreateResult.parse (j : Json) : Option ElicitationCreateResult :=
  j.getObj? >>= ElicitationCreateResult.parseFields

def ElicitationCreateResult.toJson (r : ElicitationCreateResult) : Json :=
  .obj (("action", r.action.toJson) ::
    (optEntry "content" r.content id ++ r.extra))

/-- A `#[serde(default)]` field: a missing key yields the `Default`
value; a present value (even `null`) must parse. -/
def defaultableField {α : Type} (kvs : List (String × Json)) (k : String)
    (p : Json → Option α) (d : α) : Option α :=
  match Json.lookupKey kvs k with
  | none => some d
  | some v => p v

/-- `JSONRPCRequest<T>` (src/types.rs): `jsonrpc` (an unvalidated
string), `method`, `id` and required `params`; no extra map, so unknown
keys are ignored. -/
structure JSONRPCRequest (T : Type) where
  json_rpc : String
  method : String
  id : RequestId
  params : T

def JSONRPCRequest.parse {T : Type} (pT : Json → Option T) (j : Json) :
    Option (JSONRPCRequest T) := do
  let kvs ← j.getObj?
  let jr ← reqField kvs "jsonrpc" Json.getStr?
  let m ← reqField kvs "method" Json.getStr?
  let i ← reqField kvs "id" RequestId.parse
  let p ← reqField kvs "params" pT
  pure ⟨jr, m, i, p⟩

def JSONRPCRequest.toJson {T : Type} (sT : T → Json) (r : JSONRPCRequest T) : Json :=
  .obj [("jsonrpc", .str r.json_rpc), ("method", .str r.method),
    ("id", r.id.toJson), ("params", sT r.params)]

/-- `JSONRPCNotification<T>` (src/types.rs): no `id` field is declared,
and unknown keys — including a present `id` — are ignored. -/
structure JSONRPCNotification (T : Type) where
  json_rpc : String
  method : String
  params : T

def JSONRPCNotification.parse {T : Type} (pT : Json → Option T) (j : Json) :
    Option (JSONRPCNotification T) := do
  let kvs ← j.getObj?
  let jr ← reqField kvs "jsonrpc" Json.getStr?
  let m ← reqField kvs "method" Json.getStr?
  let p ← reqField kvs "params" pT
  pure ⟨jr, m, p⟩

def JSONRPCNotification.toJson {T : Type} (sT : T → Json)
    (r : JSONRPCNotification T) : Json :=
  .obj [("jsonrpc", .str r.json_rpc), ("method", .str r.method),
    ("params", sT r.params)]

/-- `JSONRPCResponse<U>` (src/types.rs): `jsonrpc`, `id` and required
`result`; no `error` field is declared and unknown keys are ignored. -/
structure JSONRPCResponse (U : Type) where
  json_rpc : String
  id : RequestId
  result : U

def JSONRPCResponse.parse {U : Type} (pU : Json → Option U) (j : Json) :
    Option (JSONRPCResponse U) := do
  let kvs ← j.getObj?
  let jr ← reqField kvs "jsonrpc" Json.getStr?
  let i ← reqField kvs "id" RequestId.parse
  let r ← reqField kvs "result" pU
  pure ⟨jr, i, r⟩

def JSONRPCResponse.toJson {U : Type} (sU : U → Json) (r : JSONRPCResponse U) : Json :=
  .obj [("jsonrpc", .str r.json_rpc), ("id", r.id.toJson),
    ("result", sU r.result)]

/-- The fields every request variant shares (`jsonrpc` and `id`),
extracted before the variant's params: serde derives each request
variant as a struct with `jsonrpc`, `id` and `params` fields. -/
def requestArm {g : Type} (kvs : List (String × Json))
    (rest : String → RequestId → Option g) : Option g := do
  let jr ← reqField kvs "jsonrpc" Json.getStr?
  let i ← reqField kvs "id" RequestId.parse
  rest jr i

/-- The field every notification variant shares (`jsonrpc`). -/
def notificationArm {g : Type} (kvs : List (String × Json))
    (rest : String → Option g) : Option g := do
  let jr ← reqField kvs "jsonrpc" Json.getStr?
  rest jr

/-- `ClientRequest` (src/types.rs): `#[serde(tag = "method")]` union of
every client request, in source declaration order. -/
inductive ClientRequest where
  | ping (json_rpc : String) (id : RequestId) (params : PingParams)
  | Initialize (json_rpc : String) (id : RequestId) (params : InitializeParams)
  | complete (json_rpc : String) (id : RequestId) (params : CompleteParams)
  | setLevel (json_rpc : String) (id : RequestId) (params : SetLevelParams)
  | getPrompt (json_rpc : String) (id : RequestId) (params : GetPromptParams)
  | listPrompts (json_rpc : String) (id : RequestId) (params : PaginatedParams)
  | listResources (json_rpc : String) (id : RequestId) (params : PaginatedParams)
  | listResourceTemplates (json_rpc : String) (id : RequestId) (params : PaginatedParams)
  | readResource (json_rpc : String) (id : RequestId) (params : ReadResourceParams)
  | subscribe (json_rpc : String) (id : RequestId) (params : SubscribeParams)
  | unsubscribe (json_rpc : String) (id : RequestId) (params : UnsubscribeParams)
  | callTool (json_rpc : String) (id : RequestId) (params : CallToolParams)
  | listTools (json_rpc : String) (id : RequestId) (params : PaginatedParams)
  | elicitationCreate (json_rpc : String) (id : RequestId) (params : ElicitationCreateParams)

/-- The closed set of `method` tags of `ClientRequest`, in declaration
order; only `ping` carries `#[serde(default)]` params. -/
def clientRequestMethods : List String :=
  ["ping", "initialize", "completion/complete", "logging/setLevel",
    "prompts/get", "prompts/list", "resources/list", "resources/templates/list",
    "resources/read", "resources/subscribe", "resources/unsubscribe",
    "tools/call", "tools/list", "elicitation/create"]

/-- The `method`-dispatch of `ClientRequest`: an exact, case-sensitive
match of the tag against the declared renames; any other string fails. -/
def ClientRequest.parseWithMethod (kvs : List (String × Json)) (m : String) :
    Option ClientRequest :=
  if m = "ping" then
    requestArm kvs fun jr i => do
      let p ← defaultableField kvs "params" PingParams.parse ⟨⟩
      pure (.ping jr i p)
  else if m = "initialize" then
    requestArm kvs fun jr i => do
      let p ← reqField kvs "params" InitializeParams.parse
      pure (.Initialize jr i p)
  else if m = "completion/complete" then
    requestArm kvs fun jr i => do
      let p ← reqField kvs "params" CompleteParams.parse
      pure (.complete jr i p)
  else if m = "logging/setLevel" then
    requestArm kvs fun jr i => do
      let p ← reqField kvs "params" SetLevelParams.parse
      pure (.setLevel jr i p)
  else if m = "prompts/get" then
    requestArm kvs fun jr i => do
      let p ← reqField kvs "params" GetPromptParams.parse
      pure (.getPrompt jr i p)
  else if m = "prompts/list" then
    requestArm kvs fun jr i => do
      let p ← reqField kvs "params" PaginatedParams.parse
      pure (.listPrompts jr i p)
  else if m = "resources/list" then
    requestArm kvs fun jr i => do
      let p ← reqField kvs "params" PaginatedParams.parse
      pure (.listResources jr i p)
  else if m = "resources/templates/list" then
    requestArm kvs fun jr i => do
      let p ← reqField kvs "params" PaginatedParams.parse
      pure (.listResourceTemplates jr i p)
  else if m = "resources/read" then
    requestArm kvs fun jr i => do
      let p ← reqField kvs "params" ReadResourceParams.parse
      pure (.readResource jr i p)
  else if m = "resources/subscribe" then
    requestArm kvs fun jr i => do
      let p ← reqField kvs "params" SubscribeParams.parse
      pure (.subscribe jr i p)
  else if m = "resources/unsubscribe" then
    requestArm kvs fun jr i => do
      let p ← reqField kvs "params" UnsubscribeParams.parse
      pure (.unsubscribe jr i p)
  else if m = "tools/call" then
    requestArm kvs fun jr i => do
      let p ← reqField kvs "params" CallToolParams.parse
      pure (.callTool jr i p)
  else if m = "tools/list" then
    requestArm kvs fun jr i => do
      let p ← reqField kvs "params" PaginatedParams.parse
      pure (.listTools jr i p)
  else if m = "elicitation/create" then
    requestArm kvs fun jr i => do
      let p ← reqField kvs "params" ElicitationCreateParams.parse
      pure (.elicitationCreate jr i p)
  else none

def ClientRequest.parse (j : Json) : Option ClientRequest := do
  let kvs ← j.getObj?
  let m ← reqField kvs "method" Json.getStr?
  ClientRequest.parseWithMethod kvs m

/-- `ClientNotification` (src/types.rs): `#[serde(tag = "method")]`;
`Initialized` and `RootsListChanged` carry `#[serde(default)]`
params. -/
inductive ClientNotification where
  | cancelled (json_rpc : String) (params : CancelledNotificationParams)
  | progress (json_rpc : String) (params : ProgressNotificationParams)
  | initialized (json_rpc : String) (params : MCPNotificationParams)
  | rootsListChanged (json_rpc : String) (params : MCPNotificationParams)

def clientNotificationMethods : List String :=
  ["notifications/cancelled", "notifications/progress",
    "notifications/initialized", "notifications/roots/list_changed"]

/-- The `method`-dispatch of `ClientNotification`. -/
def ClientNotification.parseWithMethod (kvs : List (String × Json)) (m : String) :
    Option ClientNotification :=
  if m = "notifications/cancelled" then
    notificationArm kvs fun jr => do
      let p ← reqField kvs "params" CancelledNotificationParams.parse
      pure (.cancelled jr p)
  else if m = "notifications/progress" then
    notificationArm kvs fun jr => do
      let p ← reqField kvs "params" ProgressNotificationParams.parse
      pure (.progress jr p)
  else if m = "notifications/initialized" then
    notificationArm kvs fun jr => do
      let p ← defaultableField kvs "params" MCPNotificationParams.parse
        MCPNotificationParams.default
      pure (.initialized jr p)
  else if m = "notifications/roots/list_changed" then
    notificationArm kvs fun jr => do
      let p ← defaultableField kvs "params" MCPNotificationParams.parse
        MCPNotificationParams.default
      pure (.rootsListChanged jr p)
  else none

def ClientNotification.parse (j : Json) : Option ClientNotification := do
  let kvs ← j.getObj?
  let m ← reqField kvs "method" Json.getStr?
  ClientNotification.parseWithMethod kvs m

/-- `ServerRequest` (src/types.rs): `#[serde(tag = "method")]`; `Ping`
and `ListRoots` carry `#[serde(default)]` params. -/
inductive ServerRequest where
  | ping (json_rpc : String) (id : RequestId) (params : PingParams)
  | createMessage (json_rpc : String) (id : RequestId) (params : CreateMessageParams)
  | listRoots (json_rpc : String) (id : RequestId) (params : ListRootsParams)

def serverRequestMethods : List String :=
  ["ping", "sampling/createMessage", "roots/list"]

/-- The `method`-dispatch of `ServerRequest`. -/
def ServerRequest.parseWithMethod (kvs : List (String × Json)) (m : String) :
    Option ServerRequest :=
  if m = "ping" then
    requestArm kvs fun jr i => do
      let p ← defaultableField kvs "params" PingParams.parse ⟨⟩
      pure (.ping jr i p)
  else if m = "sampling/createMessage" then
    requestArm kvs fun jr i => do
      let p ← reqField kvs "params" CreateMessageParams.parse
      pure (.createMessage jr i p)
  else if m = "roots/list" then
    requestArm kvs fun jr i => do
      let p ← defaultableField kvs "params" ListRootsParams.parse
        ListRootsParams.default
      pure (.listRoots jr i p)
  else none

def ServerRequest.parse (j : Json) : Option ServerRequest := do
  let kvs ← j.getObj?
  let m ← reqField kvs "method" Json.getStr?
  ServerRequest.parseWithMethod kvs m

/-- `ServerNotification` (src/types.rs): `#[serde(tag = "method")]`; the
three list-changed variants carry `#[serde(default)]` params. -/
inductive ServerNotification where
  | cancelled (json_rpc : String) (params : CancelledNotificationParams)
  | progress (json_rpc : String) (params : ProgressNotificationParams)
  | loggingMessage (json_rpc : String) (params : LoggingMessageParams)
  | resourceUpdated (json_rpc : String) (params : ResourceUpdatedParams)
  | resourceListChanged (json_rpc : String) (params : MCPNotificationParams)
  | toolListChanged (json_rpc : String) (params : MCPNotificationParams)
  | promptListChanged (json_rpc : String) (params : MCPNotificationParams)

def serverNotificationMethods : List String :=
  ["notifications/cancelled", "notifications/progress", "notifications/message",
    "notifications/resources/updated", "notifications/resources/list_changed",
    "notifications/tools/list_changed", "notifications/prompts/list_changed"]

/-- The `method`-dispatch of `ServerNotification`. -/
def ServerNotification.parseWithMethod (kvs : List (String × Json)) (m : String) :
    Option ServerNotification :=
  if m = "notifications/cancelled" then
    notificationArm kvs fun jr => do
      let p ← reqField kvs "params" CancelledNotificationParams.parse
      pure (.cancelled jr p)
  else if m = "notifications/progress" then
    notificationArm kvs fun jr => do
      let p ← reqField kvs "params" ProgressNotificationParams.parse
      pure (.progress jr p)
  else if m = "notifications/message" then
    notificationArm kvs fun jr => do
      let p ← reqField kvs "params" LoggingMessageParams.parse
      pure (.loggingMessage jr p)
  else if m = "notifications/resources/updated" then
    notificationArm kvs fun jr => do
      let p ← reqField kvs "params" ResourceUpdatedParams.parse
      pure (.resourceUpdated jr p)
  else if m = "notifications/resources/list_changed" then
    notificationArm kvs fun jr => do
      let p ← defaultableField kvs "params" MCPNotificationParams.parse
        MCPNotificationParams.default
      pure (.resourceListChanged jr p)
  else if m = "notifications/tools/list_changed" then
    notificationArm kvs fun jr => do
      let p ← defaultableField kvs "params" MCPNotificationParams.parse
        MCPNotificationParams.default
      pure (.toolListChanged jr p)
  else if m = "notifications/prompts/list_changed" then
    notificationArm kvs fun jr => do
      let p ← defaultableField kvs "params" MCPNotificationParams.parse
        MCPNotificationParams.default
      pure (.promptListChanged jr p)
  else none

def ServerNotification.parse (j : Json) : Option ServerNotification := do
  let kvs ← j.getObj?
  let m ← reqField kvs "method" Json.getStr?
  ServerNotification.parseWithMethod kvs m

/-- `ServerResult` (src/types.rs lines 1159–1174 and
src/types/server.rs lines 96–109): `#[serde(untagged)]` union of every
server result shape, with `Empty` declared FIRST in both copies of the
source. -/
inductive ServerResult where
  | empty (r : EmptyResult)
  | Initialize (r : InitializeResult)
  | complete (r : CompleteResult)
  | getPrompt (r : GetPromptResult)
  | listPrompts (r : ListPromptsResult)
  | listResources (r : ListResourcesResult)
  | listResourceTemplates (r : ListResourceTemplatesResult)
  | readResource (r : ReadResourceResult)
  | callTool (r : CallToolResult)
  | listTools (r : ListToolsResult)
  | elicitationCreate (r : ElicitationCreateResult)

/-- Untagged deserialization of `ServerResult`: serde tries the
variants in declaration order and keeps the first success — so `Empty`
is tried first, exactly as the enum is declared in the source. -/
def ServerResult.parse (j : Json) : Option ServerResult :=
  (MCPResultBase.parse j).map ServerResult.empty <|>
    (InitializeResult.parse j).map ServerResult.Initialize <|>
    (CompleteResult.parse j).map ServerResult.complete <|>
    (GetPromptResult.parse j).map ServerResult.getPrompt <|>
    (ListPromptsResult.parse j).map ServerResult.listPrompts <|>
    (ListResourcesResult.parse j).map ServerResult.listResources <|>
    (ListResourceTemplatesResult.parse j).map ServerResult.listResourceTemplates <|>
    (ReadResourceResult.parse j).map ServerResult.readResource <|>
    (CallToolResult.parse j).map ServerResult.callTool <|>
    (ListToolsResult.parse j).map ServerResult.listTools <|>
    (ElicitationCreateResult.parse j).map ServerResult.elicitationCreate

def ServerResult.toJson : ServerResult → Json
  | .empty r => r.toJson
  | .Initialize r => r.toJson
  | .complete r => r.toJson
  | .getPrompt r => r.toJson
  | .listPrompts r => r.toJson
  | .listResources r => r.toJson
  | .listResourceTemplates r => r.toJson
  | .readResource r => r.toJson
  | .callTool r => r.toJson
  | .listTools r => r.toJson
  | .elicitationCreate r => r.toJson

/-- The spec's result-priority test input: a valid `CallToolResult`
shape that also satisfies `EmptyResult`'s trivial constraints. -/
def callToolShapeJson : Json := .obj [("content", .arr []), ("isError", .bool false)]

/-- The spec's method-closure test input. -/
def bogusMethodMessage : Json :=
  .obj [("jsonrpc", .str "2.0"), ("id", .int 1), ("method", .str "bogus/method"),
    ("params", .obj [])]

/-- A request-shaped message with no `params` key. -/
def requestNoParams (m : String) : Json :=
  .obj [("jsonrpc", .str "2.0"), ("id", .int 1), ("method", .str m)]

/-- A notification-shaped message with no `params` key. -/
def notificationNoParams (m : String) : Json :=
  .obj [("jsonrpc", .str "2.0"), ("method", .str m)]

/-- An `ImageContent` value whose extra map carries a `text` entry —
`text` is not a declared field of `ImageContent`, so this is a valid
extensible-record value. -/
def imageWithExtraTextKey : PromptContent :=
  .image ⟨"image", "d", "image/png", ⟨none, [("text", .str "hi")]⟩⟩

/-! ## Helper lemmas -/

theorem lookupKey_eq_none_iff {kvs : List (String × Json)} {k : String} :
    Json.lookupKey kvs k = none ↔ ∀ kv ∈ kvs, kv.1 ≠ k := by
  induction kvs with
  | nil => simp [Json.lookupKey]
  | cons kv rest ih =>
    by_cases hk : kv.1 = k
    · simp [Json.lookupKey, hk]
    · simp [Json.lookupKey, hk, ih]

theorem remainingKeys_eq_self {kvs : List (String × Json)} {decl : List String}
    (h : ∀ kv ∈ kvs, ¬ kv.1 ∈ decl) : remainingKeys kvs decl = kvs := by
  simp only [remainingKeys]
  refine List.filter_eq_self.mpr ?_
  intro kv hmem
  simpa using h kv hmem

theorem remainingKeys_cons_of_mem {k : String} {v : Json}
    {rest : List (String × Json)} {decl : List String} (h : k ∈ decl) :
    remainingKeys ((k, v) :: rest) decl = remainingKeys rest decl := by
  simp [remainingKeys, List.filter_cons, h]

theorem lookupKey_remainingKeys_eq_none {kvs : List (String × Json)}
    {decl : List String} {k : String} (h : Json.lookupKey kvs k = none) :
    Json.lookupKey (remainingKeys kvs decl) k = none :=
  lookupKey_eq_none_iff.mpr
    (fun kv hm => (lookupKey_eq_none_iff.mp h) kv (List.mem_of_mem_filter hm))

/-- If the `id` key is missing or its value has no identifier shape, a
request arm fails, whatever its params parser does. -/
theorem requestArm_eq_none {g : Type} {kvs : List (String × Json)}
    (hid : (Json.lookupKey kvs "id").bind RequestId.parse = none)
    (rest : String → RequestId → Option g) : requestArm kvs rest = none := by
  unfold requestArm
  cases hjr : Json.lookupKey kvs "jsonrpc" with
  | none => simp only [reqField, hjr, Option.none_bind, Option.bind_eq_bind']
  | some jrv =>
    cases jrv <;>
      simp only [reqField, hjr, Json.getStr?, Option.some_bind, Option.none_bind,
        Option.bind_eq_bind', hid]

/-! ## C1 -/

/-- C1: the claim's trial order is wrong for this code.  `ServerResult`
declares `Empty` FIRST, and `EmptyResult`'s flattened extra map accepts
every object whose `_meta` key is absent — so every such object,
including the valid `CallToolResult` shape
`{"content":[],"isError":false}`, resolves to the `Empty` variant, never
to `CallTool`. -/
theorem serverResult_tries_empty_first :
    (∀ kvs : List (String × Json), Json.lookupKey kvs "_meta" = none →
      ServerResult.parse (.obj kvs) = some (.empty ⟨none, kvs⟩)) ∧
    CallToolResult.parse callToolShapeJson = some ⟨none, [], none, some false, []⟩ ∧
    ServerResult.parse callToolShapeJson
      = some (.empty ⟨none, [("content", .arr []), ("isError", .bool false)]⟩) := by
  refine ⟨?_, rfl, rfl⟩
  intro kvs h
  have hrem : remainingKeys kvs ["_meta"] = kvs :=
    remainingKeys_eq_self (fun kv hm => by
      simpa using (lookupKey_eq_none_iff.mp h) kv hm)
  have hbase : MCPResultBase.parse (.obj kvs) = some ⟨none, kvs⟩ := by
    simp [MCPResultBase.parse, MCPResultBase.parseFields, Json.getObj?, optField,
      h, hrem]
  simp [ServerResult.parse, hbase]

/-- Witness for C1's universal part at a concrete object. -/
theorem serverResult_tries_empty_first_witness :
    ServerResult.parse (.obj [("x", .int 1)]) = some (.empty ⟨none, [("x", .int 1)]⟩) :=
  serverResult_tries_empty_first.1 [("x", .int 1)] rfl

/-! ## C7 -/

/-- C7: `RequestId` parses a JSON integer to `Number`, a JSON string to
`String`, fails on booleans, non-integer numbers, `null`, arrays and
objects, and serializes each variant back to its original scalar
kind. -/
theorem requestId_scalar_disambiguation :
    RequestId.parse (.int 1) = some (.number 1) ∧
    RequestId.parse (.str "x") = some (.string "x") ∧
    (∀ b, RequestId.parse (.bool b) = none) ∧
    (∀ x, RequestId.parse (.float x) = none) ∧
    RequestId.parse .null = none ∧
    (∀ xs, RequestId.parse (.arr xs) = none) ∧
    (∀ kvs, RequestId.parse (.obj kvs) = none) ∧
    (∀ n, RequestId.toJson (.number n) = .int n) ∧
    (∀ s, RequestId.toJson (.string s) = .str s) :=
  ⟨rfl, rfl, fun _ => rfl, fun _ => rfl, rfl, fun _ => rfl, fun _ => rfl,
    fun _ => rfl, fun _ => rfl⟩

/-! ## C9 -/

/-- C9: the claim's wire key is wrong for this code.  `PaginatedParams`
declares its meta field as `_meta` with no explicit rename, so
`rename_all = "camelCase"` gives it the wire key `"meta"`: serializing a
present meta field emits `"meta"`, an incoming `"_meta"` key lands in
the flattened extra map, and only an incoming `"meta"` key reaches the
typed field. -/
theorem paginatedParams_meta_wire_key_is_meta :
    renameAllCamelCase "_meta" = "meta" ∧
    PaginatedParams.toJson ⟨some ⟨some (.string "t")⟩, none, []⟩
      = .obj [("meta", .obj [("progressToken", .str "t")])] ∧
    PaginatedParams.parse (.obj [("_meta", .obj [("progressToken", .str "t")])])
      = some ⟨none, none, [("_meta", .obj [("progressToken", .str "t")])]⟩ ∧
    PaginatedParams.parse (.obj [("meta", .obj [("progressToken", .str "t")])])
      = some ⟨some ⟨some (.string "t")⟩, none, []⟩ :=
  ⟨rfl, rfl, rfl, rfl⟩

/-! ## C10 -/

/-- C10: the payload types without an open extra map — shown here for
`TextResourceContents`, `BlobResourceContents`, `ToolInputSchema`,
`CancelledNotificationParams` and the `JSONRPCRequest` envelope —
accept an unknown `junk` key on deserialization and silently drop it:
re-serializing the parsed value yields an object without that key. -/
theorem undeclared_extra_types_drop_unknown_keys :
    TextResourceContents.parse
        (.obj [("uri", .str "f://x"), ("text", .str "hi"), ("junk", .int 1)])
      = some ⟨"f://x", none, "hi"⟩ ∧
    TextResourceContents.toJson ⟨"f://x", none, "hi"⟩
      = .obj [("uri", .str "f://x"), ("text", .str "hi")] ∧
    BlobResourceContents.parse
        (.obj [("uri", .str "f://x"), ("blob", .str "AAA="), ("junk", .int 1)])
      = some ⟨"f://x", none, "AAA="⟩ ∧
    BlobResourceContents.toJson ⟨"f://x", none, "AAA="⟩
      = .obj [("uri", .str "f://x"), ("blob", .str "AAA=")] ∧
    ToolInputSchema.parse (.obj [("type", .str "object"), ("junk", .int 1)])
      = some ⟨"object", none, none⟩ ∧
    ToolInputSchema.toJson ⟨"object", none, none⟩ = .obj [("type", .str "object")] ∧
    CancelledNotificationParams.parse
        (.obj [("requestId", .int 1), ("junk", .bool true)])
      = some ⟨.number 1, none⟩ ∧
    CancelledNotificationParams.toJson ⟨.number 1, none⟩
      = .obj [("requestId", .int 1)] ∧
    JSONRPCRequest.parse parseAnyJson
        (.obj [("jsonrpc", .str "2.0"), ("method", .str "m"), ("id", .int 1),
          ("params", .obj []), ("junk", .int 1)])
      = some ⟨"2.0", "m", .number 1, .obj []⟩ ∧
    JSONRPCRequest.toJson id ⟨"2.0", "m", .number 1, .obj []⟩
      = .obj [("jsonrpc", .str "2.0"), ("method", .str "m"), ("id", .int 1),
          ("params", .obj [])] :=
  ⟨rfl, rfl, rfl, rfl, rfl, rfl, rfl, rfl, rfl, rfl⟩

/-! ## C8 -/

/-- C8: a missing `params` key is defaulted exactly for the
`#[serde(default)]` variants — `ping` (both sides), `roots/list`,
`notifications/initialized`, and the four list-changed notifications —
and fails for every other method of each dispatch union. -/
theorem default_params_only_for_documented_methods :
    ClientRequest.parse (requestNoParams "ping") = some (.ping "2.0" (.number 1) ⟨⟩) ∧
    ServerRequest.parse (requestNoParams "ping") = some (.ping "2.0" (.number 1) ⟨⟩) ∧
    ServerRequest.parse (requestNoParams "roots/list")
      = some (.listRoots "2.0" (.number 1) ⟨[]⟩) ∧
    ClientNotification.parse (notificationNoParams "notifications/initialized")
      = some (.initialized "2.0" ⟨none, []⟩) ∧
    ClientNotification.parse (notificationNoParams "notifications/roots/list_changed")
      = some (.rootsListChanged "2.0" ⟨none, []⟩) ∧
    ServerNotification.parse
        (notificationNoParams "notifications/resources/list_changed")
      = some (.resourceListChanged "2.0" ⟨none, []⟩) ∧
    ServerNotification.parse (notificationNoParams "notifications/tools/list_changed")
      = some (.toolListChanged "2.0" ⟨none, []⟩) ∧
    ServerNotification.parse
        (notificationNoParams "notifications/prompts/list_changed")
      = some (.promptListChanged "2.0" ⟨none, []⟩) ∧
    (["initialize", "completion/complete", "logging/setLevel", "prompts/get",
        "prompts/list", "resources/list", "resources/templates/list",
        "resources/read", "resources/subscribe", "resources/unsubscribe",
        "tools/call", "tools/list", "elicitation/create"].all
      (fun m => (ClientRequest.parse (requestNoParams m)).isNone)) = true ∧
    (ServerRequest.parse (requestNoParams "sampling/createMessage")).isNone = true ∧
    (["notifications/cancelled", "notifications/progress"].all
      (fun m => (ClientNotification.parse (notificationNoParams m)).isNone)) = true ∧
    (["notifications/cancelled", "notifications/progress", "notifications/message",
        "notifications/resources/updated"].all
      (fun m => (ServerNotification.parse (notificationNoParams m)).isNone)) = true :=
  ⟨rfl, rfl, rfl, rfl, rfl, rfl, rfl, rfl, rfl, rfl, rfl, rfl⟩

/-! ## C5 -/

/-- C5 counterexample: an envelope whose `jsonrpc` field is `"1.0"`
decodes successfully — the claim says any value other than `"2.0"` must
fail. -/
theorem envelope_accepts_nonstandard_version :
    JSONRPCRequest.parse parseAnyJson
        (.obj [("jsonrpc", .str "1.0"), ("method", .str "m"), ("id", .int 1),
          ("params", .obj [])])
      = some ⟨"1.0", "m", .number 1, .obj []⟩ := rfl

/-- C5 amended: the envelope structs validate nothing about the
`jsonrpc` string (any string decodes), a `Response` carrying both
`result` and `error` decodes successfully (the undeclared `error` member
is ignored), and only a `Response` carrying neither fails, because its
required `result` field is missing. -/
theorem envelope_version_and_exclusivity_unvalidated :
    (∀ s, JSONRPCRequest.parse parseAnyJson
        (.obj [("jsonrpc", .str s), ("method", .str "m"), ("id", .int 1),
          ("params", .obj [])])
      = some ⟨s, "m", .number 1, .obj []⟩) ∧
    (∀ s, JSONRPCResponse.parse parseAnyJson
        (.obj [("jsonrpc", .str s), ("id", .int 1), ("result", .obj [])])
      = some ⟨s, .number 1, .obj []⟩) ∧
    JSONRPCResponse.parse parseAnyJson
        (.obj [("jsonrpc", .str "2.0"), ("id", .int 1), ("result", .obj []),
          ("error", .obj [("code", .int (-32600)), ("message", .str "x")])])
      = some ⟨"2.0", .number 1, .obj []⟩ ∧
    JSONRPCResponse.parse parseAnyJson (.obj [("jsonrpc", .str "2.0"), ("id", .int 1)])
      = none :=
  ⟨fun _ => rfl, fun _ => rfl, rfl, rfl⟩

/-! ## C3 -/

/-- C3 counterexample: an object whose `type` is `"banana"` — none of
the three documented tag strings — still resolves, to `Text`, because
the derived untagged union never inspects the `type` value; the claim
says it must fail. -/
theorem promptContent_unknown_type_resolves :
    PromptContent.parse (.obj [("type", .str "banana"), ("text", .str "hi")])
      = some (.text ⟨"banana", "hi", ⟨none, []⟩⟩) := rfl

/-- C3 amended: `PromptContent` resolution is structural, in the fixed
order `Text`, `Image`, `Resource`: any object with string `type` and
`text` fields (and no malformed `annotations`) resolves to `Text`
whatever the `type` value — including `type: "image"` — `Image` and
`Resource` need their respective required fields, and an object
matching no variant's required fields fails. -/
theorem promptContent_structural_discrimination :
    (∀ (kvs : List (String × Json)) (t s : String),
      Json.lookupKey kvs "type" = some (.str t) →
      Json.lookupKey kvs "text" = some (.str s) →
      Json.lookupKey kvs "annotations" = none →
      ∃ a, PromptContent.parse (.obj kvs) = some (.text ⟨t, s, a⟩)) ∧
    PromptContent.parse (.obj [("type", .str "text"), ("text", .str "hi")])
      = some (.text ⟨"text", "hi", ⟨none, []⟩⟩) ∧
    PromptContent.parse
        (.obj [("type", .str "image"), ("data", .str "AAA"),
          ("mimeType", .str "image/png")])
      = some (.image ⟨"image", "AAA", "image/png", ⟨none, []⟩⟩) ∧
    PromptContent.parse
        (.obj [("type", .str "resource"),
          ("resource", .obj [("uri", .str "f://x"), ("text", .str "hi")])])
      = some (.resource ⟨"resource", .text ⟨"f://x", none, "hi"⟩, ⟨none, []⟩⟩) ∧
    PromptContent.parse
        (.obj [("type", .str "image"), ("text", .str "hi"), ("data", .str "AAA"),
          ("mimeType", .str "image/png")])
      = some (.text ⟨"image", "hi",
          ⟨none, [("data", .str "AAA"), ("mimeType", .str "image/png")]⟩⟩) ∧
    PromptContent.parse (.obj [("type", .str "bogus")]) = none := by
  refine ⟨?_, rfl, rfl, rfl, rfl, rfl⟩
  intro kvs t s ht hs han
  refine ⟨⟨none, remainingKeys (remainingKeys kvs ["type", "text"]) ["annotations"]⟩, ?_⟩
  have htext : TextContent.parse (.obj kvs)
      = some ⟨t, s, ⟨none, remainingKeys (remainingKeys kvs ["type", "text"])
          ["annotations"]⟩⟩ := by
    simp only [TextContent.parse, Json.getObj?, Option.some_bind,
      Option.bind_eq_bind', TextContent.parseFields, reqField, ht, hs, Json.getStr?,
      Annotated.parseFields, optField, lookupKey_remainingKeys_eq_none han]
    rfl
  simp [PromptContent.parse, htext]

/-- Witness for C3's universal part at a concrete object. -/
theorem promptContent_structural_discrimination_witness :
    ∃ a, PromptContent.parse
        (.obj [("type", .str "weird"), ("text", .str "w"), ("other", .int 7)])
      = some (.text ⟨"weird", "w", a⟩) :=
  promptContent_structural_discrimination.1
    [("type", .str "weird"), ("text", .str "w"), ("other", .int 7)] "weird" "w"
    rfl rfl rfl

/-! ## C4 -/

/-- C4: each dispatch union is closed over its declared `method` tags: a
message whose `method` string lies outside the union's enumeration fails
to deserialize — there is no default variant — and in particular the
`bogus/method` message fails against all four unions. -/
theorem dispatch_unions_reject_unknown_method :
    (∀ (kvs : List (String × Json)) (m : String),
      Json.lookupKey kvs "method" = some (.str m) → ¬ m ∈ clientRequestMethods →
      ClientRequest.parse (.obj kvs) = none) ∧
    (∀ (kvs : List (String × Json)) (m : String),
      Json.lookupKey kvs "method" = some (.str m) → ¬ m ∈ clientNotificationMethods →
      ClientNotification.parse (.obj kvs) = none) ∧
    (∀ (kvs : List (String × Json)) (m : String),
      Json.lookupKey kvs "method" = some (.str m) → ¬ m ∈ serverRequestMethods →
      ServerRequest.parse (.obj kvs) = none) ∧
    (∀ (kvs : List (String × Json)) (m : String),
      Json.lookupKey kvs "method" = some (.str m) → ¬ m ∈ serverNotificationMethods →
      ServerNotification.parse (.obj kvs) = none) ∧
    ClientRequest.parse bogusMethodMessage = none ∧
    ClientNotification.parse bogusMethodMessage = none ∧
    ServerRequest.parse bogusMethodMessage = none ∧
    ServerNotification.parse bogusMethodMessage = none := by
  refine ⟨?_, ?_, ?_, ?_, rfl, rfl, rfl, rfl⟩
  · intro kvs m hm h
    simp only [clientRequestMethods, List.mem_cons, List.not_mem_nil, not_or,
      or_false] at h
    obtain ⟨h1, h2, h3, h4, h5, h6, h7, h8, h9, h10, h11, h12, h13, h14⟩ := h
    simp only [ClientRequest.parse, Json.getObj?, Option.bind_eq_bind',
      Option.some_bind, reqField, hm, Json.getStr?]
    unfold ClientRequest.parseWithMethod
    rw [if_neg h1, if_neg h2, if_neg h3, if_neg h4, if_neg h5, if_neg h6, if_neg h7,
      if_neg h8, if_neg h9, if_neg h10, if_neg h11, if_neg h12, if_neg h13,
      if_neg h14]
  · intro kvs m hm h
    simp only [clientNotificationMethods, List.mem_cons, List.not_mem_nil, not_or,
      or_false] at h
    obtain ⟨h1, h2, h3, h4⟩ := h
    simp only [ClientNotification.parse, Json.getObj?, Option.bind_eq_bind',
      Option.some_bind, reqField, hm, Json.getStr?]
    unfold ClientNotification.parseWithMethod
    rw [if_neg h1, if_neg h2, if_neg h3, if_neg h4]
  · intro kvs m hm h
    simp only [serverRequestMethods, List.mem_cons, List.not_mem_nil, not_or,
      or_false] at h
    obtain ⟨h1, h2, h3⟩ := h
    simp only [ServerRequest.parse, Json.getObj?, Option.bind_eq_bind',
      Option.some_bind, reqField, hm, Json.getStr?]
    unfold ServerRequest.parseWithMethod
    rw [if_neg h1, if_neg h2, if_neg h3]
  · intro kvs m hm h
    simp only [serverNotificationMethods, List.mem_cons, List.not_mem_nil, not_or,
      or_false] at h
    obtain ⟨h1, h2, h3, h4, h5, h6, h7⟩ := h
    simp only [ServerNotification.parse, Json.getObj?, Option.bind_eq_bind',
      Option.some_bind, reqField, hm, Json.getStr?]
    unfold ServerNotification.parseWithMethod
    rw [if_neg h1, if_neg h2, if_neg h3, if_neg h4, if_neg h5, if_neg h6, if_neg h7]

/-- Witness for C4's universal parts at the `bogus/method` object. -/
theorem dispatch_unions_reject_unknown_method_witness :
    ClientRequest.parse (.obj [("method", .str "bogus/method")]) = none ∧
    ClientNotification.parse (.obj [("method", .str "bogus/method")]) = none ∧
    ServerRequest.parse (.obj [("method", .str "bogus/method")]) = none ∧
    ServerNotification.parse (.obj [("method", .str "bogus/method")]) = none :=
  ⟨dispatch_unions_reject_unknown_method.1 _ _ rfl (by decide),
    dispatch_unions_reject_unknown_method.2.1 _ _ rfl (by decide),
    dispatch_unions_reject_unknown_method.2.2.1 _ _ rfl (by decide),
    dispatch_unions_reject_unknown_method.2.2.2.1 _ _ rfl (by decide)⟩

/-! ## C6 -/

/-- C6 counterexample: a notification object that DOES carry an `id` key
still parses — both through the `ClientNotification` dispatch union and
through the generic `JSONRPCNotification` envelope — refuting the claim
that notifications succeed only when `id` is absent. -/
theorem notification_with_id_still_parses :
    ClientNotification.parse
        (.obj [("jsonrpc", .str "2.0"), ("id", .int 5),
          ("method", .str "notifications/initialized"), ("params", .obj [])])
      = some (.initialized "2.0" ⟨none, []⟩) ∧
    JSONRPCNotification.parse MCPNotificationParams.parse
        (.obj [("jsonrpc", .str "2.0"), ("id", .int 5), ("method", .str "x"),
          ("params", .obj [])])
      = some ⟨"2.0", "x", ⟨none, []⟩⟩ :=
  ⟨rfl, rfl⟩

/-- C6 amended: parsing a message as a request (the `ClientRequest` and
`ServerRequest` unions, and the generic `JSONRPCRequest` envelope)
succeeds only when an `id` of identifier shape is present — if the `id`
key is absent or its value parses as no `RequestId`, the parse fails —
while notifications do not require `id` to be absent: a present `id`
key is silently ignored. -/
theorem requests_require_id_notifications_ignore_id :
    (∀ kvs : List (String × Json),
      (Json.lookupKey kvs "id").bind RequestId.parse = none →
      ClientRequest.parse (.obj kvs) = none) ∧
    (∀ kvs : List (String × Json),
      (Json.lookupKey kvs "id").bind RequestId.parse = none →
      ServerRequest.parse (.obj kvs) = none) ∧
    (∀ kvs : List (String × Json),
      (Json.lookupKey kvs "id").bind RequestId.parse = none →
      JSONRPCRequest.parse parseAnyJson (.obj kvs) = none) ∧
    ClientNotification.parse
        (.obj [("jsonrpc", .str "2.0"), ("id", .str "req-9"),
          ("method", .str "notifications/roots/list_changed")])
      = some (.rootsListChanged "2.0" ⟨none, []⟩) := by
  refine ⟨?_, ?_, ?_, rfl⟩
  · intro kvs hid
    simp only [ClientRequest.parse, Json.getObj?, Option.bind_eq_bind',
      Option.some_bind]
    cases hmj : Json.lookupKey kvs "method" with
    | none => simp only [reqField, hmj, Option.none_bind]
    | some mj =>
      cases mj <;>
        simp only [reqField, hmj, Json.getStr?, Option.some_bind, Option.none_bind]
      unfold ClientRequest.parseWithMethod
      simp only [requestArm_eq_none hid, ite_self]
  · intro kvs hid
    simp only [ServerRequest.parse, Json.getObj?, Option.bind_eq_bind',
      Option.some_bind]
    cases hmj : Json.lookupKey kvs "method" with
    | none => simp only [reqField, hmj, Option.none_bind]
    | some mj =>
      cases mj <;>
        simp only [reqField, hmj, Json.getStr?, Option.some_bind, Option.none_bind]
      unfold ServerRequest.parseWithMethod
      simp only [requestArm_eq_none hid, ite_self]
  · intro kvs hid
    simp only [JSONRPCRequest.parse, Json.getObj?, Option.bind_eq_bind',
      Option.some_bind]
    cases hjr : Json.lookupKey kvs "jsonrpc" with
    | none => simp only [reqField, hjr, Option.none_bind]
    | some jv =>
      cases jv <;>
        simp only [reqField, hjr, Json.getStr?, Option.some_bind, Option.none_bind]
      cases hmj : Json.lookupKey kvs "method" with
      | none => simp only [reqField, hmj, Option.none_bind]
      | some mv =>
        cases mv <;>
          simp only [reqField, hmj, Json.getStr?, Option.some_bind,
            Option.none_bind, hid]

/-- Witness for C6's universal parts at a concrete object without an
`id` key. -/
theorem requests_require_id_notifications_ignore_id_witness :
    ClientRequest.parse (.obj [("method", .str "ping")]) = none ∧
    ServerRequest.parse (.obj [("method", .str "ping")]) = none ∧
    JSONRPCRequest.parse parseAnyJson (.obj [("jsonrpc", .str "2.0")]) = none :=
  ⟨requests_require_id_notifications_ignore_id.1 _ rfl,
    requests_require_id_notifications_ignore_id.2.1 _ rfl,
    requests_require_id_notifications_ignore_id.2.2.1 _ rfl⟩

/-! ## C2 -/

/-- C2 counterexample: the round-trip is NOT lossless for every declared
payload type and valid value.  `imageWithExtraTextKey` is a valid
`PromptContent` value (its extra map holds `text`, which is not a
declared `ImageContent` field), yet deserializing its serialization
re-resolves the untagged union to the earlier `Text` variant. -/
theorem promptContent_roundtrip_not_lossless :
    PromptContent.parse (PromptContent.toJson imageWithExtraTextKey)
      ≠ some imageWithExtraTextKey := by
  intro h
  have h0 : PromptContent.parse (PromptContent.toJson imageWithExtraTextKey)
      = some (.text ⟨"image", "hi",
          ⟨none, [("data", .str "d"), ("mimeType", .str "image/png")]⟩⟩) := rfl
  rw [h0] at h
  simp [imageWithExtraTextKey] at h

/-- C2 amended: the round-trip IS lossless for the claim's cited
extensible-record types: any `Implementation` or `MCPResultBase` value
whose extra map avoids the declared wire keys reparses to itself, every
extra entry included; the universal claim fails only where an extra
entry makes a serialized value re-resolve to an earlier variant of an
untagged union (see the counterexample). -/
theorem extensible_record_roundtrip :
    (∀ v : Implementation, (∀ kv ∈ v.extra, kv.1 ≠ "name" ∧ kv.1 ≠ "version") →
      Implementation.parse v.toJson = some v) ∧
    (∀ v : MCPResultBase, (∀ kv ∈ v.extra, kv.1 ≠ "_meta") →
      MCPResultBase.parse v.toJson = some v) := by
  constructor
  · intro v h
    obtain ⟨n, ver, extra⟩ := v
    have hrem : remainingKeys
        (("name", Json.str n) :: ("version", Json.str ver) :: extra)
        ["name", "version"] = extra := by
      rw [remainingKeys_cons_of_mem (by simp), remainingKeys_cons_of_mem (by simp),
        remainingKeys_eq_self]
      intro kv hm
      rcases h kv hm with ⟨h1, h2⟩
      simp [h1, h2]
    simp only [Implementation.toJson, Implementation.fieldsOf, Implementation.parse,
      Json.getObj?, Option.some_bind, Option.bind_eq_bind',
      Implementation.parseFields, reqField, Json.lookupKey, Json.getStr?, hrem]
    simp
  · intro v h
    obtain ⟨meta, extra⟩ := v
    have hl : Json.lookupKey extra "_meta" = none :=
      lookupKey_eq_none_iff.mpr (fun kv hm => h kv hm)
    have hrem : remainingKeys extra ["_meta"] = extra :=
      remainingKeys_eq_self (fun kv hm => by simp [h kv hm])
    cases meta with
    | none =>
      simp only [MCPResultBase.toJson, MCPResultBase.fieldsOf, optEntry,
        List.nil_append, MCPResultBase.parse, Json.getObj?, Option.some_bind,
        Option.bind_eq_bind', MCPResultBase.parseFields, optField, hl, hrem,
        Option.pure_def]
    | some m =>
      simp only [MCPResultBase.toJson, MCPResultBase.fieldsOf, optEntry,
        List.cons_append, List.nil_append, MCPResultBase.parse, Json.getObj?,
        Option.some_bind, Option.bind_eq_bind', MCPResultBase.parseFields, optField,
        Json.lookupKey, reduceIte, parseRawMap, Option.map_some',
        remainingKeys_cons_of_mem (by simp : "_meta" ∈ ["_meta"]), hrem,
        Option.pure_def]

/-- Witness for C2's amended round-trip at concrete values with
non-empty extra maps. -/
theorem extensible_record_roundtrip_witness :
    Implementation.parse
        (Implementation.toJson ⟨"client", "1.0", [("vendor", .str "acme")]⟩)
      = some ⟨"client", "1.0", [("vendor", .str "acme")]⟩ ∧
    MCPResultBase.parse
        (MCPResultBase.toJson ⟨some [("trace", .int 7)], [("extraKey", .bool true)]⟩)
      = some ⟨some [("trace", .int 7)], [("extraKey", .bool true)]⟩ :=
  ⟨extensible_record_roundtrip.1 _ (by simp),
    extensible_record_roundtrip.2 _ (by simp)⟩

end MCPSchema






